import Mathlib

/-!
# SynapseDB query-processing core: a shallow embedding

This file embeds the core of the SynapseDB query pipeline in Lean 4 and
proves properties of it:

* `lib/query-cache.ts` — the TTL query cache (`QueryCache`);
* `lib/query-security.ts` — the SQL injection detector, read-only enforcer,
  structural validator and the sliding-window `RateLimiter`;
* `lib/query-optimizer.ts` — pagination, index hints, SELECT-star rewrite,
  subquery analysis, timeout wrapper and the heuristic cost estimator;
* `app/api/query-pipeline/route.ts` — the orchestration pipeline (`POST`).

Conventions of the embedding:

* JavaScript strings are modelled as `List Char`; `String` is used at the
  public boundaries and converted with `String.toList`.
* JavaScript numbers are modelled as `Int` (the pipeline only handles
  integral page numbers, timestamps and counters; float-only behaviour is
  out of scope and noted where it occurs, e.g. cache statistics ratios are
  modelled as `Rat`).
* `Date.now()` is passed in explicitly as an `Int` argument `now`.
* JavaScript `Map` objects are modelled as insertion-ordered association
  lists; `Map.set` of an existing key keeps its position, matching the
  iteration-order semantics of the runtime.
* Values that may be thrown are modelled with `Except`; external calls
  (LLM generation, database execution, embeddings) are oracles supplied as
  `Except` values in an environment record.
-/

namespace SynapseDB

/-! ## Character and string helpers (JavaScript semantics) -/

/-- The single-quote character, written by code point to keep source clean. -/
def quoteCh : Char := Char.ofNat 39

/-- The open-brace character. -/
def lbraceCh : Char := Char.ofNat 123

/-- The close-brace character. -/
def rbraceCh : Char := Char.ofNat 125

/-- The backtick character. -/
def backtickCh : Char := Char.ofNat 96

/-- JavaScript whitespace class `\s` (restricted to the ASCII part; the
Unicode space characters are never produced by the pipeline). -/
def isJsWs (c : Char) : Bool :=
  c = ' ' || c = '\t' || c = '\n' || c = '\r' || c.toNat = 11 || c.toNat = 12

/-- Decimal digit test, JavaScript `\d`. -/
def isDigitCh (c : Char) : Bool := 48 ≤ c.toNat && c.toNat ≤ 57

/-- JavaScript word-character class `\w`, i.e. `[A-Za-z0-9_]`. -/
def isWordCh (c : Char) : Bool :=
  (65 ≤ c.toNat && c.toNat ≤ 90) || (97 ≤ c.toNat && c.toNat ≤ 122) ||
    isDigitCh c || c = '_'

/-- ASCII lower-casing, the effect of `String.prototype.toLowerCase` on the
strings handled by the pipeline. -/
def lowerCh (c : Char) : Char :=
  if 65 ≤ c.toNat ∧ c.toNat ≤ 90 then Char.ofNat (c.toNat + 32) else c

/-- ASCII upper-casing (`toUpperCase`). -/
def upperCh (c : Char) : Char :=
  if 97 ≤ c.toNat ∧ c.toNat ≤ 122 then Char.ofNat (c.toNat - 32) else c

/-- Case-insensitive character comparison (the `i` regex flag). -/
def ciEq (a b : Char) : Bool := lowerCh a = lowerCh b

def lowerL (cs : List Char) : List Char := cs.map lowerCh

def upperL (cs : List Char) : List Char := cs.map upperCh

/-- JavaScript `String.prototype.trim` (whitespace from both ends). -/
def jsTrim (cs : List Char) : List Char :=
  ((cs.dropWhile isJsWs).reverse.dropWhile isJsWs).reverse

/-- Helper for `collapseWs`: `prevWs` records whether the previous character
was inside a whitespace run already replaced. -/
def collapseWsAux : Bool → List Char → List Char
  | _, [] => []
  | prevWs, c :: cs =>
    if isJsWs c then
      if prevWs then collapseWsAux true cs
      else ' ' :: collapseWsAux true cs
    else c :: collapseWsAux false cs

/-- `replace(/\s+/g, " ")`: every maximal whitespace run becomes one space. -/
def collapseWs (cs : List Char) : List Char := collapseWsAux false cs

/-- Substring test, JavaScript `String.prototype.includes`. -/
def containsSub (hay needle : List Char) : Bool :=
  (List.range (hay.length + 1)).any (fun i => needle.isPrefixOf (hay.drop i))

/-- Case-insensitive prefix test. -/
def ciIsPrefix : List Char → List Char → Bool
  | [], _ => true
  | _ :: _, [] => false
  | p :: ps, c :: cs => ciEq p c && ciIsPrefix ps cs

/-- Case-insensitive substring test. -/
def ciContainsSub (hay needle : List Char) : Bool :=
  (List.range (hay.length + 1)).any (fun i => ciIsPrefix needle (hay.drop i))

/-! ## JSON values and `JSON.stringify`

The cache key derivation serialises the `params` argument with
`JSON.stringify`.  `params` has TypeScript type `any`; it is modelled as an
optional JSON value (`undefined` is `none`).  JSON numbers are modelled as
integers: every `params` value the repository passes is built from integer
page numbers.  Object fields keep insertion order, exactly as
`JSON.stringify` serialises them. -/

inductive JVal : Type where
  | jnull : JVal
  | jbool (b : Bool) : JVal
  | jnum (n : Int) : JVal
  | jstr (s : List Char) : JVal
  | jarr (elems : List JVal) : JVal
  | jobj (fields : List (List Char × JVal)) : JVal

mutual

/-- Decidable equality for JSON values (hand-rolled: the automatic deriving
does not handle the nested lists). -/
def JVal.decEq : (a b : JVal) → Decidable (a = b)
  | .jnull, .jnull => .isTrue rfl
  | .jnull, .jbool _ => .isFalse (fun h => by cases h)
  | .jnull, .jnum _ => .isFalse (fun h => by cases h)
  | .jnull, .jstr _ => .isFalse (fun h => by cases h)
  | .jnull, .jarr _ => .isFalse (fun h => by cases h)
  | .jnull, .jobj _ => .isFalse (fun h => by cases h)
  | .jbool _, .jnull => .isFalse (fun h => by cases h)
  | .jbool a, .jbool b =>
    match inferInstanceAs (Decidable (a = b)) with
    | .isTrue h => .isTrue (by rw [h])
    | .isFalse h => .isFalse (fun hh => h (JVal.jbool.inj hh))
  | .jbool _, .jnum _ => .isFalse (fun h => by cases h)
  | .jbool _, .jstr _ => .isFalse (fun h => by cases h)
  | .jbool _, .jarr _ => .isFalse (fun h => by cases h)
  | .jbool _, .jobj _ => .isFalse (fun h => by cases h)
  | .jnum _, .jnull => .isFalse (fun h => by cases h)
  | .jnum _, .jbool _ => .isFalse (fun h => by cases h)
  | .jnum a, .jnum b =>
    match inferInstanceAs (Decidable (a = b)) with
    | .isTrue h => .isTrue (by rw [h])
    | .isFalse h => .isFalse (fun hh => h (JVal.jnum.inj hh))
  | .jnum _, .jstr _ => .isFalse (fun h => by cases h)
  | .jnum _, .jarr _ => .isFalse (fun h => by cases h)
  | .jnum _, .jobj _ => .isFalse (fun h => by cases h)
  | .jstr _, .jnull => .isFalse (fun h => by cases h)
  | .jstr _, .jbool _ => .isFalse (fun h => by cases h)
  | .jstr _, .jnum _ => .isFalse (fun h => by cases h)
  | .jstr a, .jstr b =>
    match inferInstanceAs (Decidable (a = b)) with
    | .isTrue h => .isTrue (by rw [h])
    | .isFalse h => .isFalse (fun hh => h (JVal.jstr.inj hh))
  | .jstr _, .jarr _ => .isFalse (fun h => by cases h)
  | .jstr _, .jobj _ => .isFalse (fun h => by cases h)
  | .jarr _, .jnull => .isFalse (fun h => by cases h)
  | .jarr _, .jbool _ => .isFalse (fun h => by cases h)
  | .jarr _, .jnum _ => .isFalse (fun h => by cases h)
  | .jarr _, .jstr _ => .isFalse (fun h => by cases h)
  | .jarr a, .jarr b =>
    match JVal.decEqList a b with
    | .isTrue h => .isTrue (by rw [h])
    | .isFalse h => .isFalse (fun hh => h (JVal.jarr.inj hh))
  | .jarr _, .jobj _ => .isFalse (fun h => by cases h)
  | .jobj _, .jnull => .isFalse (fun h => by cases h)
  | .jobj _, .jbool _ => .isFalse (fun h => by cases h)
  | .jobj _, .jnum _ => .isFalse (fun h => by cases h)
  | .jobj _, .jstr _ => .isFalse (fun h => by cases h)
  | .jobj _, .jarr _ => .isFalse (fun h => by cases h)
  | .jobj a, .jobj b =>
    match JVal.decEqFields a b with
    | .isTrue h => .isTrue (by rw [h])
    | .isFalse h => .isFalse (fun hh => h (JVal.jobj.inj hh))

/-- Decidable equality for lists of JSON values. -/
def JVal.decEqList : (as bs : List JVal) → Decidable (as = bs)
  | [], [] => .isTrue rfl
  | [], _ :: _ => .isFalse (fun h => by cases h)
  | _ :: _, [] => .isFalse (fun h => by cases h)
  | a :: as, b :: bs =>
    match JVal.decEq a b with
    | .isFalse h => .isFalse (fun hh => h (List.head_eq_of_cons_eq hh))
    | .isTrue h1 =>
      match JVal.decEqList as bs with
      | .isTrue h2 => .isTrue (by rw [h1, h2])
      | .isFalse h => .isFalse (fun hh => h (List.tail_eq_of_cons_eq hh))

/-- Decidable equality for JSON object field lists. -/
def JVal.decEqFields : (as bs : List (List Char × JVal)) → Decidable (as = bs)
  | [], [] => .isTrue rfl
  | [], _ :: _ => .isFalse (fun h => by cases h)
  | _ :: _, [] => .isFalse (fun h => by cases h)
  | (k1, v1) :: as, (k2, v2) :: bs =>
    match inferInstanceAs (Decidable (k1 = k2)) with
    | .isFalse h =>
      .isFalse (fun hh => h (congrArg Prod.fst (List.head_eq_of_cons_eq hh)))
    | .isTrue hk =>
      match JVal.decEq v1 v2 with
      | .isFalse h =>
        .isFalse (fun hh => h (congrArg Prod.snd (List.head_eq_of_cons_eq hh)))
      | .isTrue hv =>
        match JVal.decEqFields as bs with
        | .isTrue h2 => .isTrue (by rw [hk, hv, h2])
        | .isFalse h => .isFalse (fun hh => h (List.tail_eq_of_cons_eq hh))

end

instance : DecidableEq JVal := JVal.decEq

/-- A decimal digit character. -/
def digitCh (d : Nat) : Char := Char.ofNat (48 + d)

/-- Lower-case hexadecimal digit, as produced by `JSON.stringify` control
escapes. -/
def hexDigitCh (n : Nat) : Char :=
  if n < 10 then Char.ofNat (48 + n) else Char.ofNat (87 + n)

/-- `JSON.stringify` escaping of one string character. -/
def escCharJ (c : Char) : List Char :=
  if c = '"' then ['\\', '"']
  else if c = '\\' then ['\\', '\\']
  else if c.toNat = 8 then ['\\', 'b']
  else if c.toNat = 9 then ['\\', 't']
  else if c.toNat = 10 then ['\\', 'n']
  else if c.toNat = 12 then ['\\', 'f']
  else if c.toNat = 13 then ['\\', 'r']
  else if c.toNat < 32 then
    ['\\', 'u', '0', '0', hexDigitCh (c.toNat / 16), hexDigitCh (c.toNat % 16)]
  else [c]

/-- `JSON.stringify` escaping of a whole string body. -/
def escJ (s : List Char) : List Char := (s.map escCharJ).flatten

/-- Decimal digits, fuel-bounded so that the kernel can evaluate it (the
fuel `n + 1` always suffices, see `natDigits_eq`). -/
def natDigitsF : Nat → Nat → List Char
  | _, 0 => []
  | n, Nat.succ fuel =>
    if n < 10 then [digitCh n] else natDigitsF (n / 10) fuel ++ [digitCh (n % 10)]

/-- Decimal digits of a natural number, most significant first. -/
def natDigits (n : Nat) : List Char := natDigitsF n (n + 1)

/-- The fuel is irrelevant once it exceeds the number. -/
theorem natDigitsF_congr : ∀ (fuel1 fuel2 n : Nat), n < fuel1 → n < fuel2 →
    natDigitsF n fuel1 = natDigitsF n fuel2 := by
  intro fuel1
  induction fuel1 with
  | zero => intro fuel2 n h1; omega
  | succ f1 ih =>
    intro fuel2 n h1 h2
    cases fuel2 with
    | zero => omega
    | succ f2 =>
      simp only [natDigitsF]
      by_cases hn : n < 10
      · simp [hn]
      · simp only [hn, if_false]
        have hdd : n / 10 < n := Nat.div_lt_self (by omega) (by omega)
        have := ih f2 (n / 10) (by omega) (by omega)
        rw [this]

/-- The recursive unfolding of `natDigits`. -/
theorem natDigits_eq (n : Nat) :
    natDigits n =
      if n < 10 then [digitCh n] else natDigits (n / 10) ++ [digitCh (n % 10)] := by
  show natDigitsF n (n + 1) = _
  by_cases hn : n < 10
  · simp [natDigitsF, hn]
  · simp only [natDigitsF, hn, if_false]
    have hdd : n / 10 < n := Nat.div_lt_self (by omega) (by omega)
    rw [natDigitsF_congr n (n / 10 + 1) (n / 10) (by omega) (by omega)]
    rfl

/-- Decimal rendering of an integer (`String(n)` for integral numbers). -/
def serInt (n : Int) : List Char :=
  if n < 0 then '-' :: natDigits n.natAbs else natDigits n.toNat

mutual

/-- `JSON.stringify` of a JSON value. -/
def serJ : JVal → List Char
  | .jnull => ['n', 'u', 'l', 'l']
  | .jbool true => ['t', 'r', 'u', 'e']
  | .jbool false => ['f', 'a', 'l', 's', 'e']
  | .jnum n => serInt n
  | .jstr s => '"' :: (escJ s ++ ['"'])
  | .jarr es => '[' :: (serArr es ++ [']'])
  | .jobj fs => lbraceCh :: (serObj fs ++ [rbraceCh])

/-- Array elements joined by commas. -/
def serArr : List JVal → List Char
  | [] => []
  | v :: vs =>
    match vs with
    | [] => serJ v
    | _ :: _ => serJ v ++ (',' :: serArr vs)

/-- Object fields joined by commas, each rendered `"key":value`. -/
def serObj : List (List Char × JVal) → List Char
  | [] => []
  | (k, v) :: fs =>
    match fs with
    | [] => '"' :: (escJ k ++ ('"' :: (':' :: serJ v)))
    | _ :: _ =>
      ('"' :: (escJ k ++ ('"' :: (':' :: serJ v)))) ++ (',' :: serObj fs)

end

/-- JavaScript truthiness of a JSON value (`null`, `false`, `0` and the
empty string are falsy; arrays and objects are always truthy). -/
def jsTruthy : JVal → Bool
  | .jnull => false
  | .jbool b => b
  | .jnum n => n ≠ 0
  | .jstr s => s ≠ []
  | .jarr _ => true
  | .jobj _ => true

/-! ## `lib/query-cache.ts` — QueryCache -/

/-- One cache slot: `\x7b data, timestamp, ttl, hits \x7d`. -/
structure CacheEntry (α : Type) where
  data : α
  timestamp : Int
  ttl : Int
  hits : Nat
deriving DecidableEq

/-- The cache object.  `entries` is the backing `Map` in insertion order. -/
structure QueryCache (α : Type) where
  maxSize : Nat
  defaultTTL : Int
  entries : List (List Char × CacheEntry α)
deriving DecidableEq

/-- A fresh cache, `new QueryCache(maxSize, defaultTTL)`; the defaults are
1000 entries and five minutes. -/
def QueryCache.mk0 (α : Type) (maxSize : Nat := 1000)
    (defaultTTL : Int := 5 * 60 * 1000) : QueryCache α :=
  ⟨maxSize, defaultTTL, []⟩

/-- `Map.get`. -/
def mapFind {κ β : Type} [BEq κ] (m : List (κ × β)) (k : κ) : Option β :=
  (m.find? (fun e => e.1 == k)).map (·.2)

/-- `Map.set`: replaces in place (keeping insertion order) or appends. -/
def mapSet {κ β : Type} [BEq κ] : List (κ × β) → κ → β → List (κ × β)
  | [], k, v => [(k, v)]
  | (k0, v0) :: rest, k, v =>
    if k0 == k then (k, v) :: rest else (k0, v0) :: mapSet rest k v

/-- `Map.delete` (keys are unique, so filtering is exact). -/
def mapDelete {κ β : Type} [BEq κ] (m : List (κ × β)) (k : κ) : List (κ × β) :=
  m.filter (fun e => !(e.1 == k))

/-- `generateKey`: normalise the query text (trim, lower-case, collapse
whitespace), serialise params if truthy, and join with a colon. -/
def generateKey (query : String) (params : Option JVal) : List Char :=
  let normalized := collapseWs (lowerL (jsTrim query.toList))
  let paramsKey : List Char :=
    match params with
    | none => []
    | some v => if jsTruthy v then serJ v else []
  normalized ++ (':' :: paramsKey)

/-- The non-null result of `QueryCache.get`: `\x7b data, hit: true \x7d`. -/
structure GetHit (α : Type) where
  data : α
  hit : Bool
deriving DecidableEq

/-- `QueryCache.get`: miss on absent key; lazy expiry (`age > ttl` deletes
and misses); otherwise bumps the hit counter in place and returns the
data. -/
def QueryCache.get {α : Type} (c : QueryCache α) (query : String)
    (params : Option JVal) (now : Int) : Option (GetHit α) × QueryCache α :=
  let key := generateKey query params
  match mapFind c.entries key with
  | none => (none, c)
  | some e =>
    let age := now - e.timestamp
    if age > e.ttl then
      (none, { c with entries := mapDelete c.entries key })
    else
      let e2 : CacheEntry α := { e with hits := e.hits + 1 }
      (some ⟨e2.data, true⟩, { c with entries := mapSet c.entries key e2 })

/-- `QueryCache.set`: when `size >= maxSize`, delete the first key of the
map (`keys().next().value`) if it is truthy, then store the new entry.
A `ttl` of `0` is falsy in `ttl || this.defaultTTL`, so it falls back to
the default. -/
def QueryCache.set {α : Type} (c : QueryCache α) (query : String) (data : α)
    (params : Option JVal) (ttl : Option Int) (now : Int) : QueryCache α :=
  let key := generateKey query params
  let entries1 :=
    if c.entries.length ≥ c.maxSize then
      match c.entries.head? with
      | some (k0, _) => if k0 ≠ [] then mapDelete c.entries k0 else c.entries
      | none => c.entries
    else c.entries
  let t : Int :=
    match ttl with
    | some t0 => if t0 ≠ 0 then t0 else c.defaultTTL
    | none => c.defaultTTL
  { c with entries := mapSet entries1 key ⟨data, now, t, 0⟩ }

/-- `getStats` result.  The two ratio fields are floating point in the
source; they are modelled as rationals (for `maxSize = 0` the source would
produce `Infinity`, the model returns the `Rat` division default). -/
structure CacheStats where
  size : Nat
  maxSize : Nat
  totalHits : Nat
  avgHitsPerEntry : Rat
  utilizationPercent : Rat
deriving DecidableEq

/-- `QueryCache.getStats`: pure aggregation over live entries, no expiry
sweep. -/
def QueryCache.getStats {α : Type} (c : QueryCache α) : CacheStats :=
  let totalHits := (c.entries.map (fun e => e.2.hits)).sum
  let entries := c.entries.length
  { size := c.entries.length
    maxSize := c.maxSize
    totalHits := totalHits
    avgHitsPerEntry := if entries > 0 then (totalHits : Rat) / (entries : Rat) else 0
    utilizationPercent := ((c.entries.length : Rat) / (c.maxSize : Rat)) * 100 }

/-- `QueryCache.cleanup`: delete every entry whose age exceeds its ttl and
return how many were removed. -/
def QueryCache.cleanup {α : Type} (c : QueryCache α) (now : Int) :
    Nat × QueryCache α :=
  let keep := c.entries.filter (fun e => !(now - e.2.timestamp > e.2.ttl))
  (c.entries.length - keep.length, { c with entries := keep })

/-! ## A small regular-expression engine

`lib/query-security.ts` tests the SQL text against a fixed list of regex
literals (all with the `i` flag), and `QueryCache.invalidate` compiles a
caller-supplied pattern with `new RegExp(pattern, "i")`.  `Pat` is the
abstract syntax the engine runs; the fixed literals below are translated
term by term.  The engine decides match *existence* (`RegExp.prototype.test`),
for which greedy and lazy quantifiers are equivalent, so `*?` is modelled
by `star`. -/

/-- One member of a character class. -/
inductive ClsItem : Type where
  | single (c : Char)
  | range (lo hi : Char)
  | digit
  | nondigit
  | space
  | nonspace
  | word
  | nonword

/-- Regular-expression abstract syntax. -/
inductive Pat : Type where
  | eps
  | lit (c : Char)
  | anyDot
  | cls (neg : Bool) (items : List ClsItem)
  | seq (p q : Pat)
  | alt (p q : Pat)
  | star (p : Pat)
  | startAnchor
  | endAnchor

/-- ECMAScript line terminators (what `.` does not match). -/
def isLineTerm (c : Char) : Bool :=
  c = '\n' || c = '\r' || c.toNat = 0x2028 || c.toNat = 0x2029

/-- Does character `c` match one class item (case-insensitively, the `i`
flag canonicalised through ASCII lower-casing)? -/
def chMatchItem (c : Char) : ClsItem → Bool
  | .single x => ciEq c x
  | .range lo hi =>
    (lowerCh lo).toNat ≤ (lowerCh c).toNat && (lowerCh c).toNat ≤ (lowerCh hi).toNat
  | .digit => isDigitCh c
  | .nondigit => !isDigitCh c
  | .space => isJsWs c
  | .nonspace => !isJsWs c
  | .word => isWordCh c
  | .nonword => !isWordCh c

/-- Does `c` match the class `[items]` (or `[^items]` when negated)? -/
def chMatchCls (neg : Bool) (items : List ClsItem) (c : Char) : Bool :=
  if neg then !(items.any (chMatchItem c)) else items.any (chMatchItem c)

/-- Structural size of a pattern, used to compute a sufficient fuel. -/
def patSize : Pat → Nat
  | .eps => 1
  | .lit _ => 1
  | .anyDot => 1
  | .cls _ _ => 1
  | .seq p q => patSize p + patSize q + 1
  | .alt p q => patSize p + patSize q + 1
  | .star p => patSize p + 1
  | .startAnchor => 1
  | .endAnchor => 1

/-- Fuel-bounded backtracking acceptor.  `s` is the whole subject, `i` the
current position, `k` the continuation on the position after the match.
The star case only loops on strict progress, so the fuel computed by
`testPat` is always sufficient on the patterns in this file. -/
def acceptF (s : List Char) : Nat → Pat → Nat → (Nat → Bool) → Bool
  | 0, _, _, _ => false
  | Nat.succ fuel, p, i, k =>
    match p with
    | .eps => k i
    | .lit c =>
      match s.get? i with
      | some a => ciEq a c && k (i + 1)
      | none => false
    | .anyDot =>
      match s.get? i with
      | some a => !isLineTerm a && k (i + 1)
      | none => false
    | .cls neg items =>
      match s.get? i with
      | some a => chMatchCls neg items a && k (i + 1)
      | none => false
    | .seq p1 p2 => acceptF s fuel p1 i (fun j => acceptF s fuel p2 j k)
    | .alt p1 p2 => acceptF s fuel p1 i k || acceptF s fuel p2 i k
    | .star p1 =>
      k i || acceptF s fuel p1 i
        (fun j => if i < j then acceptF s fuel (.star p1) j k else false)
    | .startAnchor => i == 0 && k i
    | .endAnchor => i == s.length && k i

/-- `RegExp.prototype.test`: search for a match at every start position. -/
def testPat (p : Pat) (s : List Char) : Bool :=
  let fuel := (patSize p + 2) * (s.length + 2) * 2 + 100
  (List.range (s.length + 1)).any (fun i => acceptF s fuel p i (fun _ => true))

/-- Sequence a list of patterns. -/
def pseqL (ps : List Pat) : Pat := ps.foldr Pat.seq Pat.eps

/-- A literal string pattern. -/
def plits (w : String) : Pat := pseqL (w.toList.map Pat.lit)

/-- Alternation over a non-empty list (the empty list matches nothing). -/
def paltL : List Pat → Pat
  | [] => Pat.cls false []
  | p :: ps => ps.foldl Pat.alt p

/-- `p?` -/
def popt (p : Pat) : Pat := Pat.alt p Pat.eps

/-- `p+` -/
def pplus (p : Pat) : Pat := Pat.seq p (Pat.star p)

/-- `\s` -/
def wsP : Pat := Pat.cls false [.space]

/-- `\s*` -/
def wsStar : Pat := Pat.star wsP

/-- `\s+` -/
def wsPlus : Pat := pplus wsP

/-- `\d+` -/
def digitsPlus : Pat := pplus (Pat.cls false [.digit])

/-- Builds string literals that contain single quotes: `@` stands for the
quote character (keeps the Lean source free of stray apostrophes). -/
def mkS (s : String) : String :=
  String.mk (s.toList.map (fun c => if c = '@' then quoteCh else c))

/-! ## `lib/query-security.ts` -/

/-- The result shape shared by all validator stages. -/
structure SecurityCheckResult where
  safe : Bool
  errors : List String
  warnings : List String
deriving DecidableEq

/-- The `dangerousPatterns` list of `detectSQLInjection`, in source order:
each entry is the regex source text (used in the error message) and its
translation to `Pat`. -/
def dangerousPatterns : List (String × Pat) :=
  [ ("xp_cmdshell", plits "xp_cmdshell")
  , ("exec\\s+master", pseqL [plits "exec", wsPlus, plits "master"])
  , ("execute\\s+master", pseqL [plits "execute", wsPlus, plits "master"])
  , ("bulk\\s+insert", pseqL [plits "bulk", wsPlus, plits "insert"])
  , ("openrowset", plits "openrowset")
  , ("opendatasource", plits "opendatasource")
  , ("sp_oacreate", plits "sp_oacreate")
  , ("pg_read_file", plits "pg_read_file")
  , ("pg_ls_dir", plits "pg_ls_dir")
  , ("lo_import", plits "lo_import")
  , ("lo_export", plits "lo_export")
  , (";\\s*(drop|delete|truncate|alter|create|grant|revoke)"
    , pseqL [Pat.lit ';', wsStar
      , paltL [plits "drop", plits "delete", plits "truncate", plits "alter"
              , plits "create", plits "grant", plits "revoke"]])
  , ("--[^\\n]*?(union|select|insert|update|delete)"
    , pseqL [plits "--", Pat.star (Pat.cls true [.single '\n'])
      , paltL [plits "union", plits "select", plits "insert", plits "update"
              , plits "delete"]])
  , ("\\/\\*.*?(union|select|insert|update|delete).*?\\*\\/"
    , pseqL [plits "/*", Pat.star Pat.anyDot
      , paltL [plits "union", plits "select", plits "insert", plits "update"
              , plits "delete"]
      , Pat.star Pat.anyDot, plits "*/"])
  , ("union\\s+(all\\s+)?select"
    , pseqL [plits "union", wsPlus, popt (pseqL [plits "all", wsPlus])
            , plits "select"])
  , (mkS "@\\s*(or|and)\\s*@?\\s*@?\\s*=\\s*@?"
    , pseqL [Pat.lit quoteCh, wsStar, paltL [plits "or", plits "and"], wsStar
            , popt (Pat.lit quoteCh), wsStar, popt (Pat.lit quoteCh), wsStar
            , Pat.lit '=', wsStar, popt (Pat.lit quoteCh)])
  , (mkS "@\\s*(or|and)\\s+\\d+\\s*=\\s*\\d+"
    , pseqL [Pat.lit quoteCh, wsStar, paltL [plits "or", plits "and"], wsPlus
            , digitsPlus, wsStar, Pat.lit '=', wsStar, digitsPlus])
  , ("waitfor\\s+delay", pseqL [plits "waitfor", wsPlus, plits "delay"])
  , ("pg_sleep", plits "pg_sleep")
  , ("sleep\\s*\\(", pseqL [plits "sleep", wsStar, Pat.lit '('])
  , ("benchmark\\s*\\(", pseqL [plits "benchmark", wsStar, Pat.lit '('])
  ]

/-- The `suspiciousPatterns` list (warnings only), in source order. -/
def suspiciousPatterns : List (Pat × String) :=
  [ (plits "information_schema", "Access to information_schema detected")
  , (plits "pg_catalog", "Access to pg_catalog detected")
  , (pseqL [Pat.lit quoteCh, wsStar, Pat.lit '+', wsStar, Pat.lit quoteCh]
    , "String concatenation in query")
  , (pseqL [plits "char", wsStar, Pat.lit '('], "CHAR() function usage detected")
  , (pseqL [plits "concat", wsStar, Pat.lit '(']
    , "CONCAT() function usage detected")
  ]

/-- `detectSQLInjection`: one error per matching dangerous pattern, one
warning per matching suspicious pattern, `safe` iff no error. -/
def detectSQLInjection (query : String) : SecurityCheckResult :=
  let qs := query.toList
  let errors := (dangerousPatterns.filter (fun pr => testPat pr.2 qs)).map
    (fun pr => "Detected dangerous SQL pattern: " ++ pr.1)
  let warnings := (suspiciousPatterns.filter (fun pr => testPat pr.1 qs)).map
    (fun pr => pr.2)
  ⟨errors.isEmpty, errors, warnings⟩

/-- The write-operation keyword list of `enforceReadOnly`. -/
def writeOperations : List String :=
  ["INSERT", "UPDATE", "DELETE", "DROP", "CREATE", "ALTER", "TRUNCATE"
  , "GRANT", "REVOKE"]

/-- The per-keyword pattern `(^|;)\s*OP\s+` (case-insensitive). -/
def writeOpPat (op : String) : Pat :=
  pseqL [Pat.alt Pat.startAnchor (Pat.lit ';'), wsStar, plits op, wsPlus]

/-- `enforceReadOnly`: reject write keywords at statement starts, require a
`SELECT`/`WITH` head, and warn about multiple `;`-separated statements. -/
def enforceReadOnly (query : String) : SecurityCheckResult :=
  let qs := query.toList
  let normalized := upperL (jsTrim qs)
  let errors1 := (writeOperations.filter (fun op => testPat (writeOpPat op) qs)).map
    (fun op => "Write operation not allowed: " ++ op)
  let errors :=
    if !(("SELECT".toList).isPrefixOf normalized) &&
        !(("WITH".toList).isPrefixOf normalized) then
      errors1 ++ ["Query must be a SELECT statement or CTE"]
    else errors1
  let statements := (qs.splitOn ';').filter (fun s => jsTrim s ≠ [])
  let warnings :=
    if statements.length > 1 then
      ["Multiple statements detected - only the first will be executed"]
    else []
  ⟨errors.isEmpty, errors, warnings⟩

/-- Does the parenthesis walk ever dip below zero? -/
def parenDip : List Char → Int → Bool
  | [], _ => false
  | c :: cs, bal =>
    let bal2 := if c = '(' then bal + 1 else if c = ')' then bal - 1 else bal
    if bal2 < 0 then true else parenDip cs bal2

/-- Final parenthesis balance. -/
def parenBal (cs : List Char) : Int :=
  cs.foldl (fun bal c =>
    if c = '(' then bal + 1 else if c = ')' then bal - 1 else bal) 0

/-- Count of non-overlapping case-insensitive whole-word occurrences,
JavaScript `(query.match(/\bWORD\b/gi) || []).length`. -/
def countWordFrom (w s : List Char) : Nat → Nat → Nat
  | _, 0 => 0
  | i, Nat.succ fuel =>
    if i + w.length > s.length then 0
    else if (i == 0 || !(isWordCh (s.getD (i - 1) ' '))) &&
        ciIsPrefix w (s.drop i) &&
        (i + w.length == s.length || !(isWordCh (s.getD (i + w.length) ' '))) then
      1 + countWordFrom w s (i + w.length) fuel
    else countWordFrom w s (i + 1) fuel

def countWordCI (w : String) (s : List Char) : Nat :=
  countWordFrom w.toList s 0 (s.length + 2)

/-- `validateQueryStructure`: quote parity, parenthesis balance, length and
complexity warnings. -/
def validateQueryStructure (query : String) : SecurityCheckResult :=
  let qs := query.toList
  let singleQuotes := (qs.filter (fun c => c = quoteCh)).length
  let errorsQ1 : List String :=
    if singleQuotes % 2 ≠ 0 then ["Unbalanced single quotes detected"] else []
  let doubleQuotes := (qs.filter (fun c => c = '"')).length
  let errorsQ2 : List String :=
    if doubleQuotes % 2 ≠ 0 then ["Unbalanced double quotes detected"] else []
  let errorsP : List String :=
    if parenDip qs 0 then ["Unbalanced parentheses detected"]
    else if parenBal qs > 0 then ["Unclosed parentheses detected"]
    else []
  let warningsLen : List String :=
    if qs.length > 10000 then
      ["Query exceeds recommended length (10000 characters)"]
    else []
  let selectCount := countWordCI "select" qs
  let warningsSel : List String :=
    if selectCount > 10 then
      ["High number of SELECT clauses (" ++ toString selectCount ++
        ") - may impact performance"]
    else []
  let joinCount := countWordCI "join" qs
  let warningsJoin : List String :=
    if joinCount > 8 then
      ["High number of JOINs (" ++ toString joinCount ++
        ") - may impact performance"]
    else []
  let errors := errorsQ1 ++ errorsQ2 ++ errorsP
  ⟨errors.isEmpty, errors, warningsLen ++ warningsSel ++ warningsJoin⟩

/-- `validateQuerySecurity`: run the three stages and union their output;
safe iff no stage produced an error. -/
def validateQuerySecurity (query : String) : SecurityCheckResult :=
  let results := [detectSQLInjection query, enforceReadOnly query
                 , validateQueryStructure query]
  let allErrors := (results.map (fun r => r.errors)).flatten
  let allWarnings := (results.map (fun r => r.warnings)).flatten
  ⟨allErrors.isEmpty, allErrors, allWarnings⟩

/-! ## `RateLimiter` (same file) -/

/-- The sliding-window rate limiter; `requests` is the per-identifier map
of recorded timestamps. -/
structure RateLimiter where
  maxRequests : Nat
  windowMs : Int
  requests : List (String × List Int)
deriving DecidableEq

/-- `new RateLimiter(maxRequests, windowMs)`; defaults 100 per minute. -/
def RateLimiter.mk0 (maxRequests : Nat := 100) (windowMs : Int := 60000) :
    RateLimiter :=
  ⟨maxRequests, windowMs, []⟩

/-- `this.requests.get(identifier) || []`. -/
def RateLimiter.window (rl : RateLimiter) (id : String) : List Int :=
  (mapFind rl.requests id).getD []

/-- `isAllowed`: filter the stored window to entries inside `windowMs`;
deny (without writing anything back) when that count reaches
`maxRequests`, otherwise record `now` and allow. -/
def RateLimiter.isAllowed (rl : RateLimiter) (id : String) (now : Int) :
    Bool × RateLimiter :=
  let userRequests := rl.window id
  let validRequests := userRequests.filter (fun t => now - t < rl.windowMs)
  if validRequests.length ≥ rl.maxRequests then
    (false, rl)
  else
    (true, { rl with requests := mapSet rl.requests id (validRequests ++ [now]) })

/-- `getRemainingRequests`: purge-and-count on a temporary list; the stored
map is returned untouched (the method performs no `set`). -/
def RateLimiter.getRemainingRequests (rl : RateLimiter) (id : String)
    (now : Int) : Nat × RateLimiter :=
  let validRequests := (rl.window id).filter (fun t => now - t < rl.windowMs)
  (rl.maxRequests - validRequests.length, rl)

/-- `reset`: drop the identifier entirely. -/
def RateLimiter.reset (rl : RateLimiter) (id : String) : RateLimiter :=
  { rl with requests := mapDelete rl.requests id }


/-! ## `lib/query-optimizer.ts` -/

/-- Decimal string of an integer. -/
def intStr (n : Int) : String := String.mk (serInt n)

/-- Length of the leading whitespace run. -/
def wsRunLen (s : List Char) : Nat := (s.takeWhile isJsWs).length

/-- Length of the leading digit run. -/
def digitRunLen (s : List Char) : Nat := (s.takeWhile isDigitCh).length

/-- Length of the leading `[a-zA-Z0-9_]` run. -/
def wordRunLen (s : List Char) : Nat := (s.takeWhile isWordCh).length

/-- `[a-zA-Z0-9_.]` (identifier-with-dots class used by the join regex). -/
def isDotWordCh (c : Char) : Bool := isWordCh c || c = '.'

/-- Length of the leading `[a-zA-Z0-9_.]` run. -/
def dotWordRunLen (s : List Char) : Nat := (s.takeWhile isDotWordCh).length

/-- First-match extent of `KW\s+\d+` (case-insensitive) at or after
position `i`; the quantifiers are exact here because whitespace and digits
are disjoint. -/
def findKwNum (kw s : List Char) : Nat → Nat → Option (Nat × Nat)
  | _, 0 => none
  | i, Nat.succ fuel =>
    if i > s.length then none
    else
      let rest := s.drop i
      let matchLen : Option Nat :=
        if ciIsPrefix kw rest then
          let rest2 := rest.drop kw.length
          let w := wsRunLen rest2
          if w ≥ 1 then
            let d := digitRunLen (rest2.drop w)
            if d ≥ 1 then some (kw.length + w + d) else none
          else none
        else none
      match matchLen with
      | some l => some (i, l)
      | none => findKwNum kw s (i + 1) fuel

/-- `replace(/KW\s+\d+/i, "")`: delete the first match, if any. -/
def replaceFirstKwNum (kw s : List Char) : List Char :=
  match findKwNum kw s 0 (s.length + 2) with
  | some (i, l) => s.take i ++ s.drop (i + l)
  | none => s

/-- The cleanup `paginateQuery` performs before appending pagination:
strip the first `LIMIT n`, the first `OFFSET n`, trim, drop one trailing
semicolon (`replace(/;$/, "")`). -/
def cleanSqlForPagination (sql : List Char) : List Char :=
  let s1 := replaceFirstKwNum ("limit".toList) sql
  let s2 := replaceFirstKwNum ("offset".toList) s1
  let s3 := jsTrim s2
  if s3.getLast? = some ';' then s3.dropLast else s3

/-- The `pagination` record inside an `OptimizedQuery`. -/
structure PaginationInfo where
  page : Int
  pageSize : Int
  offset : Int
  limit : Int
deriving DecidableEq

/-- The `OptimizedQuery` result shape (the unused `estimatedRows` field is
omitted; no code path sets it). -/
structure OptimizedQuery where
  sql : List Char
  countSql : Option (List Char)
  pagination : Option PaginationInfo
  hints : List String
deriving DecidableEq

/-- `paginateQuery`: clamp `page` to at least 1 and `pageSize` into
`[10, 1000]`, strip existing LIMIT/OFFSET and a trailing semicolon, append
`LIMIT l OFFSET o`, and build the COUNT query.  The capping hint is pushed
only when `pageSize > 1000`. -/
def paginateQuery (sql : List Char) (page pageSize : Int) : OptimizedQuery :=
  let validPage := max 1 page
  let validPageSize := min 1000 (max 10 pageSize)
  let offset := (validPage - 1) * validPageSize
  let limit := validPageSize
  let cleanedSql := cleanSqlForPagination sql
  let paginatedSql := cleanedSql ++
    ('\n' :: (("LIMIT ".toList) ++ serInt limit ++ (" OFFSET ".toList) ++ serInt offset))
  let countSql := ("SELECT COUNT(*) as total FROM (".toList) ++ cleanedSql ++
    (") as subquery".toList)
  let hints0 :=
    ["Paginating: page " ++ intStr validPage ++ ", " ++ intStr validPageSize ++
      " rows per page"
    , "Offset: " ++ intStr offset ++ ", Limit: " ++ intStr limit]
  let hints :=
    if pageSize > 1000 then
      hints0 ++ ["Page size capped at 1000 rows for performance"]
    else hints0
  ⟨paginatedSql, some countSql, some ⟨validPage, validPageSize, offset, limit⟩, hints⟩

/-- First match of `/FROM\s+([a-zA-Z0-9_]+)/i`: the captured table name. -/
def findFromTable (s : List Char) : Option (List Char) :=
  (List.range (s.length + 1)).findSome? (fun i =>
    let rest := s.drop i
    if ciIsPrefix ("from".toList) rest then
      let rest2 := rest.drop 4
      let w := wsRunLen rest2
      if w ≥ 1 then
        let rest3 := rest2.drop w
        let d := wordRunLen rest3
        if d ≥ 1 then some (rest3.take d) else none
      else none
    else none)

/-- Is one of the `(?:GROUP BY|ORDER BY|LIMIT|$)` terminators at `pos`? -/
def whereTerminatorAt (s : List Char) (pos : Nat) : Bool :=
  pos == s.length || ciIsPrefix ("group by".toList) (s.drop pos) ||
    ciIsPrefix ("order by".toList) (s.drop pos) ||
    ciIsPrefix ("limit".toList) (s.drop pos)

/-- Match of `/WHERE\s+(.+?)(?:GROUP BY|ORDER BY|LIMIT|$)/i` anchored at
`i`: greedy `\s+` (longest run first, backtracking downward), then the lazy
`(.+?)` capture (shortest dot-run reaching a terminator). -/
def findWhereClauseAt (s : List Char) (i : Nat) : Option (List Char) :=
  if ciIsPrefix ("where".toList) (s.drop i) then
    let j0 := i + 5
    let w0 := wsRunLen (s.drop j0)
    (List.range w0).findSome? (fun d =>
      let w := w0 - d
      let j := j0 + w
      (List.range (s.length - j)).findSome? (fun k1 =>
        let k := k1 + 1
        if ((s.drop j).take k).all (fun c => !isLineTerm c) &&
            whereTerminatorAt s (j + k) then
          some ((s.drop j).take k)
        else none))
  else none

/-- First match of the WHERE-clause regex anywhere in the string. -/
def findWhereClause (s : List Char) : Option (List Char) :=
  (List.range (s.length + 1)).findSome? (findWhereClauseAt s)

/-- First match of `/ORDER BY\s+([a-zA-Z0-9_]+)/i`: the captured column. -/
def findOrderByCol (s : List Char) : Option (List Char) :=
  (List.range (s.length + 1)).findSome? (fun i =>
    let rest := s.drop i
    if ciIsPrefix ("order by".toList) rest then
      let rest2 := rest.drop 8
      let w := wsRunLen rest2
      if w ≥ 1 then
        let rest3 := rest2.drop w
        let d := wordRunLen rest3
        if d ≥ 1 then some (rest3.take d) else none
      else none
    else none)

/-- One join match: table, left column expression, right column
expression. -/
structure JoinMatch where
  table : List Char
  leftCol : List Char
  rightCol : List Char
deriving DecidableEq

/-- Extent and captures of
`/JOIN\s+([a-zA-Z0-9_]+)\s+ON\s+([a-zA-Z0-9_.]+)\s*=\s*([a-zA-Z0-9_.]+)/i`
anchored at `i` (all quantifier choices are exact: the character classes
involved are pairwise disjoint from their successors). -/
def joinMatchAt (s : List Char) (i : Nat) : Option (Nat × JoinMatch) :=
  let rest := s.drop i
  if ciIsPrefix ("join".toList) rest then
    let r1 := rest.drop 4
    let w1 := wsRunLen r1
    if w1 ≥ 1 then
      let r2 := r1.drop w1
      let t := wordRunLen r2
      if t ≥ 1 then
        let table := r2.take t
        let r3 := r2.drop t
        let w2 := wsRunLen r3
        if w2 ≥ 1 && ciIsPrefix ("on".toList) (r3.drop w2) then
          let r4 := r3.drop (w2 + 2)
          let w3 := wsRunLen r4
          if w3 ≥ 1 then
            let r5 := r4.drop w3
            let a := dotWordRunLen r5
            if a ≥ 1 then
              let leftCol := r5.take a
              let r6 := r5.drop a
              let w4 := wsRunLen r6
              if (r6.drop w4).head? = some '=' then
                let r7 := r6.drop (w4 + 1)
                let w5 := wsRunLen r7
                let b := dotWordRunLen (r7.drop w5)
                if b ≥ 1 then
                  some (4 + w1 + t + w2 + 2 + w3 + a + w4 + 1 + w5 + b
                    , ⟨table, leftCol, (r7.drop w5).take b⟩)
                else none
              else none
            else none
          else none
        else none
      else none
    else none
  else none

/-- `matchAll` for the join regex: non-overlapping matches left to right. -/
def joinMatchesFrom (s : List Char) : Nat → Nat → List JoinMatch
  | _, 0 => []
  | i, Nat.succ fuel =>
    if i > s.length then []
    else
      match joinMatchAt s i with
      | some (l, m) => m :: joinMatchesFrom s (i + l) fuel
      | none => joinMatchesFrom s (i + 1) fuel

def joinMatches (s : List Char) : List JoinMatch :=
  joinMatchesFrom s 0 (s.length + 2)

/-- `split(".").pop()`: the last dot-separated component. -/
def lastDotComponent (cs : List Char) : List Char :=
  ((cs.splitOn '.').getLast?).getD []

/-- Map lookup used by the optimizer: `map.get(name.toLowerCase()) || []`. -/
def tblLookup (m : List (List Char × List (List Char))) (name : List Char) :
    List (List Char) :=
  (mapFind m (lowerL name)).getD []

/-- `addIndexHints`: advisory hints only, the SQL is returned unchanged. -/
def addIndexHints (sql : List Char)
    (tableIndexes : List (List Char × List (List Char))) : OptimizedQuery :=
  match findFromTable sql with
  | none => ⟨sql, none, none, []⟩
  | some tableName =>
    let indexes := tblLookup tableIndexes tableName
    let hintsWhere :=
      match findWhereClause sql with
      | some whereClause =>
        (indexes.filter (fun idx => containsSub (lowerL whereClause) (lowerL idx))).map
          (fun idx => "Index available on " ++ String.mk tableName ++ "." ++
            String.mk idx)
      | none => []
    let hintsOrder :=
      match findOrderByCol sql with
      | some orderColumn =>
        if indexes.contains orderColumn then
          ["Index available for ORDER BY on " ++ String.mk orderColumn]
        else
          ["Consider creating index on " ++ String.mk tableName ++ "." ++
            String.mk orderColumn ++ " for ORDER BY optimization"]
      | none => []
    let hintsJoin :=
      (joinMatches sql).filterMap (fun m =>
        let leftColumn := lastDotComponent m.leftCol
        let rightColumn := lastDotComponent m.rightCol
        let joinIndexes := tblLookup tableIndexes m.table
        if !(joinIndexes.contains leftColumn) && !(joinIndexes.contains rightColumn) then
          some ("Consider adding index on join column: " ++ String.mk m.table ++
            "." ++ String.mk rightColumn)
        else none)
    ⟨sql, none, none, hintsWhere ++ hintsOrder ++ hintsJoin⟩

/-- First-match extent of `/SELECT\s+\*/i` at a position (exact because
whitespace and `*` are disjoint). -/
def selectStarAt (s : List Char) (i : Nat) : Option Nat :=
  let rest := s.drop i
  if ciIsPrefix ("select".toList) rest then
    let w := wsRunLen (rest.drop 6)
    if w ≥ 1 && (rest.drop (6 + w)).head? = some '*' then some (6 + w + 1)
    else none
  else none

/-- Position and extent of the first `/SELECT\s+\*/i` match. -/
def findSelectStar (s : List Char) : Option (Nat × Nat) :=
  (List.range (s.length + 1)).findSome? (fun i =>
    (selectStarAt s i).map (fun l => (i, l)))

/-- `optimizeSelectStar`: warn about `SELECT *`; with schema columns for
the first referenced table, rewrite the first `SELECT *` into an explicit
column list. -/
def optimizeSelectStar (sql : List Char)
    (tableColumns : List (List Char × List (List Char))) : OptimizedQuery :=
  match findSelectStar sql with
  | none => ⟨sql, none, none, []⟩
  | some (i, l) =>
    let hint0 :=
      "SELECT * detected - consider specifying explicit columns for better performance"
    match findFromTable sql with
    | none => ⟨sql, none, none, [hint0]⟩
    | some tableName =>
      match mapFind tableColumns (lowerL tableName) with
      | some columns =>
        if columns.length > 0 then
          let columnList := List.intercalate (", ".toList) columns
          let optimizedSql := sql.take i ++ ("SELECT ".toList) ++ columnList ++
            sql.drop (i + l)
          let shown := List.intercalate (", ".toList) (columns.take 5)
          let hint1 := "Replaced SELECT * with explicit columns: " ++
            String.mk shown ++ (if columns.length > 5 then "..." else "")
          ⟨optimizedSql, none, none, [hint0, hint1]⟩
        else ⟨sql, none, none, [hint0]⟩
      | none => ⟨sql, none, none, [hint0]⟩

/-- End position of `FROM\s*\(` when it matches at `b`. -/
def fromParenAt (s : List Char) (b : Nat) : Option Nat :=
  if ciIsPrefix ("from".toList) (s.drop b) then
    let w := wsRunLen (s.drop (b + 4))
    if s.get? (b + 4 + w) = some '(' then some (b + 4 + w + 1) else none
  else none

/-- Count of `/SELECT[\s\S]*?FROM\s*\(/gi` matches: lazy leftmost
non-overlapping scan — from each earliest `SELECT`, complete with the
earliest following `FROM\s*\(` and resume after it. -/
def countSubqFrom (s : List Char) : Nat → Nat → Nat
  | _, 0 => 0
  | pos, Nat.succ fuel =>
    match (List.range (s.length + 1)).find?
        (fun a => pos ≤ a && ciIsPrefix ("select".toList) (s.drop a)) with
    | none => 0
    | some a =>
      match (List.range (s.length + 1)).findSome?
          (fun b => if a + 6 ≤ b then (fromParenAt s b).map (fun e => e) else none) with
      | none => 0
      | some e => 1 + countSubqFrom s e fuel

def countSubq (s : List Char) : Nat := countSubqFrom s 0 (s.length + 2)

/-- `/WHERE\s+[a-zA-Z0-9_.]+\s+IN\s*\(\s*SELECT/i` as a `Pat`. -/
def correlatedPattern : Pat :=
  pseqL [plits "where", wsPlus
    , pplus (Pat.cls false [.range 'a' 'z', .range '0' '9', .single '_', .single '.'])
    , wsPlus, plits "in", wsStar, Pat.lit '(', wsStar, plits "select"]

/-- `optimizeSubqueries`: advisory hints only. -/
def optimizeSubqueries (sql : List Char) : OptimizedQuery :=
  let subqueryCount := countSubq sql
  let hints1 :=
    if subqueryCount > 0 then
      [intStr subqueryCount ++ " subquery(ies) detected"] ++
        (if subqueryCount > 3 then
          ["Consider using CTEs (WITH clause) for better readability and potential performance"]
        else [])
    else []
  let hints2 :=
    if testPat correlatedPattern sql then
      ["Correlated subquery detected - consider using JOIN instead for better performance"]
    else []
  ⟨sql, none, none, hints1 ++ hints2⟩

/-- `addQueryTimeout`: prefix a `SET LOCAL statement_timeout`. -/
def addQueryTimeout (sql : List Char) (timeoutMs : Int) : List Char :=
  ("SET LOCAL statement_timeout = ".toList) ++ serInt timeoutMs ++
    ("; ".toList) ++ sql

/-- Options record of `optimizeQuery`.  `pagination` is `(page, pageSize)`;
the two schema maps are keyed by lower-cased table name. -/
structure OptimizeOptions where
  pagination : Option (Int × Int) := none
  tableIndexes : Option (List (List Char × List (List Char))) := none
  tableColumns : Option (List (List Char × List (List Char))) := none
  enableTimeout : Bool := false
  timeoutMs : Option Int := none

/-- JavaScript default-parameter semantics (`timeoutMs = 30000`): only an
absent value falls back. -/
def jsParamDefault (o : Option Int) (d : Int) : Int := o.getD d

/-- JavaScript `||` on an optional number: absent or zero falls back. -/
def jsOrInt (o : Option Int) (d : Int) : Int :=
  match o with
  | some t => if t ≠ 0 then t else d
  | none => d

/-- `optimizeQuery`: pagination, then index hints, then the SELECT-star
rewrite, then subquery analysis, then the optional timeout prefix, merging
hint lists at every stage. -/
def optimizeQuery (sql : List Char) (options : OptimizeOptions) : OptimizedQuery :=
  let result0 : OptimizedQuery := ⟨sql, none, none, []⟩
  let result1 :=
    match options.pagination with
    | some (page, pageSize) =>
      let paginated := paginateQuery result0.sql page pageSize
      { paginated with hints := result0.hints ++ paginated.hints }
    | none => result0
  let result2 :=
    match options.tableIndexes with
    | some m =>
      let indexed := addIndexHints result1.sql m
      { result1 with sql := indexed.sql, hints := result1.hints ++ indexed.hints }
    | none => result1
  let result3 :=
    match options.tableColumns with
    | some m =>
      let opt := optimizeSelectStar result2.sql m
      { result2 with sql := opt.sql, hints := result2.hints ++ opt.hints }
    | none => result2
  let subqueryOpt := optimizeSubqueries result3.sql
  let result4 := { result3 with hints := result3.hints ++ subqueryOpt.hints }
  if options.enableTimeout then
    { result4 with
      sql := addQueryTimeout result4.sql (jsParamDefault options.timeoutMs 30000)
      hints := result4.hints ++
        ["Query timeout set to " ++ intStr (jsOrInt options.timeoutMs 30000) ++ "ms"] }
  else result4

/-- The cost estimate: a bucket string (`low`, `medium`, `high`) and the
contributing factors. -/
structure CostEstimate where
  cost : String
  factors : List String
deriving DecidableEq

/-- The aggregation keywords of `/\b(COUNT|SUM|AVG|MIN|MAX|GROUP BY)\b/gi`. -/
def aggKeywords : List (List Char) :=
  [("count".toList), ("sum".toList), ("avg".toList), ("min".toList)
  , ("max".toList), ("group by".toList)]

/-- Global count of word-bounded alternation matches (leftmost alternative
first, non-overlapping). -/
def countAggsFrom (s : List Char) : Nat → Nat → Nat
  | _, 0 => 0
  | i, Nat.succ fuel =>
    if i > s.length then 0
    else
      let boundaryBefore := i == 0 || !(isWordCh (s.getD (i - 1) ' '))
      let hit := aggKeywords.find? (fun w =>
        boundaryBefore && ciIsPrefix w (s.drop i) &&
          (i + w.length == s.length || !(isWordCh (s.getD (i + w.length) ' '))))
      match hit with
      | some w => 1 + countAggsFrom s (i + w.length) fuel
      | none => countAggsFrom s (i + 1) fuel

def countAggs (s : List Char) : Nat := countAggsFrom s 0 (s.length + 2)

/-- `estimateQueryCost`: the additive text-pattern heuristic. -/
def estimateQueryCost (sql : List Char) : CostEstimate :=
  let joinCount := countWordCI "join" sql
  let f1 : List String × Nat :=
    if joinCount > 0 then ([intStr joinCount ++ " JOIN(s)"], joinCount * 10)
    else ([], 0)
  let subqueryCount := countSubq sql
  let f2 : List String × Nat :=
    if subqueryCount > 0 then
      ([intStr subqueryCount ++ " subquery(ies)"], subqueryCount * 15)
    else ([], 0)
  let aggCount := countAggs sql
  let f3 : List String × Nat :=
    if aggCount > 0 then ([intStr aggCount ++ " aggregation(s)"], aggCount * 5)
    else ([], 0)
  let f4 : List String × Nat :=
    if countWordCI "distinct" sql > 0 then (["DISTINCT operation"], 10) else ([], 0)
  let f5 : List String × Nat :=
    if countWordCI "order by" sql > 0 then (["ORDER BY clause"], 5) else ([], 0)
  let likeCount := countWordCI "like" sql
  let f6 : List String × Nat :=
    if likeCount > 0 then ([intStr likeCount ++ " LIKE pattern(s)"], likeCount * 8)
    else ([], 0)
  let score := f1.2 + f2.2 + f3.2 + f4.2 + f5.2 + f6.2
  let factors := f1.1 ++ f2.1 ++ f3.1 ++ f4.1 ++ f5.1 ++ f6.1
  let cost := if score < 20 then "low" else if score < 50 then "medium" else "high"
  ⟨cost, factors⟩


/-! ## Compiling caller-supplied patterns: `new RegExp(pattern, "i")`

`QueryCache.invalidate` compiles an arbitrary caller string; an invalid
pattern makes the `RegExp` constructor throw a `SyntaxError`.  The
recursive-descent validator below covers the core ECMAScript pattern
grammar (alternation, sequencing, groups, classes, quantifiers, anchors,
the standard escapes).  A few exotic constructs (lookarounds, word-boundary
assertions, backreferences, `\c` escapes) are outside the model and are
rejected; the theorems below only use the implication "compiles ⟹ the
operation returns normally", which is unaffected by that restriction. -/

/-- Numeric value of a digit run. -/
def natOfDigits (cs : List Char) : Nat :=
  cs.foldl (fun acc c => acc * 10 + (c.toNat - 48)) 0

/-- Two-digit hex value, if present. -/
def hexVal2 : List Char → Option (Nat × List Char)
  | a :: b :: rest =>
    let hv := fun (c : Char) =>
      if isDigitCh c then some (c.toNat - 48)
      else if 97 ≤ c.toNat ∧ c.toNat ≤ 102 then some (c.toNat - 87)
      else if 65 ≤ c.toNat ∧ c.toNat ≤ 70 then some (c.toNat - 55)
      else none
    match hv a, hv b with
    | some x, some y => some (x * 16 + y, rest)
    | _, _ => none
  | _ => none

/-- Four-digit hex value, if present. -/
def hexVal4 (cs : List Char) : Option (Nat × List Char) :=
  match hexVal2 cs with
  | some (x, rest) =>
    match hexVal2 rest with
    | some (y, rest2) => some (x * 256 + y, rest2)
    | none => none
  | none => none

/-- A class element: either a builtin class or a concrete character. -/
def parseClassEsc : List Char → Option ((ClsItem ⊕ Char) × List Char)
  | [] => none
  | c :: rest =>
    if c = 'd' then some (.inl .digit, rest)
    else if c = 'D' then some (.inl .nondigit, rest)
    else if c = 's' then some (.inl .space, rest)
    else if c = 'S' then some (.inl .nonspace, rest)
    else if c = 'w' then some (.inl .word, rest)
    else if c = 'W' then some (.inl .nonword, rest)
    else if c = 'n' then some (.inr '\n', rest)
    else if c = 'r' then some (.inr '\r', rest)
    else if c = 't' then some (.inr '\t', rest)
    else if c = 'f' then some (.inr (Char.ofNat 12), rest)
    else if c = 'v' then some (.inr (Char.ofNat 11), rest)
    else if c = '0' then some (.inr (Char.ofNat 0), rest)
    else if c = 'b' then some (.inr (Char.ofNat 8), rest)
    else if isDigitCh c then none
    else if c = 'x' then
      match hexVal2 rest with
      | some (v, rest2) => some (.inr (Char.ofNat v), rest2)
      | none => some (.inr 'x', rest)
    else if c = 'u' then
      match hexVal4 rest with
      | some (v, rest2) => some (.inr (Char.ofNat v), rest2)
      | none => some (.inr 'u', rest)
    else if c = 'c' then none
    else some (.inr c, rest)

/-- One raw class element (escaped or literal; `]` terminates). -/
def parseClassElem : List Char → Option ((ClsItem ⊕ Char) × List Char)
  | [] => none
  | '\\' :: rest => parseClassEsc rest
  | c :: rest => if c = ']' then none else some (.inr c, rest)

/-- Class body: elements and `a-b` ranges up to the closing `]`.
An out-of-order range is a `SyntaxError`; a dash adjacent to a builtin
class or to the closing bracket is a literal. -/
def parseClassItems : Nat → List Char → List ClsItem → Option (List ClsItem × List Char)
  | 0, _, _ => none
  | Nat.succ fuel, cs, acc =>
    match cs with
    | ']' :: rest => some (acc.reverse, rest)
    | _ =>
      match parseClassElem cs with
      | none => none
      | some (e1, rest1) =>
        match e1, rest1 with
        | .inr c1, '-' :: rest2 =>
          if rest2.head? = some ']' then
            parseClassItems fuel rest2 (ClsItem.single '-' :: ClsItem.single c1 :: acc)
          else
            match parseClassElem rest2 with
            | some (.inr c2, rest3) =>
              if c1.toNat ≤ c2.toNat then
                parseClassItems fuel rest3 (ClsItem.range c1 c2 :: acc)
              else none
            | some (.inl it, rest3) =>
              parseClassItems fuel rest3
                (it :: ClsItem.single '-' :: ClsItem.single c1 :: acc)
            | none => none
        | .inr c1, _ => parseClassItems fuel rest1 (ClsItem.single c1 :: acc)
        | .inl it, _ => parseClassItems fuel rest1 (it :: acc)

/-- A full character class after the opening `[`. -/
def parseClassP (fuel : Nat) : List Char → Option (Pat × List Char)
  | '^' :: rest =>
    (parseClassItems fuel rest []).map (fun pr => (Pat.cls true pr.1, pr.2))
  | cs => (parseClassItems fuel cs []).map (fun pr => (Pat.cls false pr.1, pr.2))

/-- Top-level escape after a backslash. -/
def parseEsc : List Char → Option (Pat × List Char)
  | [] => none
  | c :: rest =>
    if c = 'd' then some (Pat.cls false [.digit], rest)
    else if c = 'D' then some (Pat.cls false [.nondigit], rest)
    else if c = 's' then some (Pat.cls false [.space], rest)
    else if c = 'S' then some (Pat.cls false [.nonspace], rest)
    else if c = 'w' then some (Pat.cls false [.word], rest)
    else if c = 'W' then some (Pat.cls false [.nonword], rest)
    else if c = 'b' ∨ c = 'B' then none
    else if c = 'n' then some (Pat.lit '\n', rest)
    else if c = 'r' then some (Pat.lit '\r', rest)
    else if c = 't' then some (Pat.lit '\t', rest)
    else if c = 'f' then some (Pat.lit (Char.ofNat 12), rest)
    else if c = 'v' then some (Pat.lit (Char.ofNat 11), rest)
    else if c = '0' then some (Pat.lit (Char.ofNat 0), rest)
    else if isDigitCh c then none
    else if c = 'x' then
      match hexVal2 rest with
      | some (v, rest2) => some (Pat.lit (Char.ofNat v), rest2)
      | none => some (Pat.lit 'x', rest)
    else if c = 'u' then
      match hexVal4 rest with
      | some (v, rest2) => some (Pat.lit (Char.ofNat v), rest2)
      | none => some (Pat.lit 'u', rest)
    else if c = 'c' then none
    else some (Pat.lit c, rest)

/-- Brace quantifier body after `\x7b`: `n`, `n,` or `n,m` then `\x7d`.
Returns `none` when the shape is invalid (the brace is then a literal). -/
def parseBraceQuant (cs : List Char) : Option (Nat × Option (Option Nat) × List Char) :=
  let d := digitRunLen cs
  if d = 0 then none
  else
    let n := natOfDigits (cs.take d)
    match cs.drop d with
    | '\x7d' :: r => some (n, none, r)
    | ',' :: r2 =>
      match r2 with
      | '\x7d' :: r3 => some (n, some none, r3)
      | _ =>
        let d2 := digitRunLen r2
        if d2 > 0 then
          match r2.drop d2 with
          | '\x7d' :: r3 => some (n, some (some (natOfDigits (r2.take d2))), r3)
          | _ => none
        else none
    | _ => none

/-- `n` copies of a pattern in sequence. -/
def npow (p : Pat) (n : Nat) : Pat := pseqL (List.replicate n p)

/-- Up to `n` further copies (`p?` repeated). -/
def nopt (p : Pat) (n : Nat) : Pat := pseqL (List.replicate n (popt p))

/-- Consume a lazy marker `?` after a quantifier (lazy and greedy match the
same language, which is all `test` observes). -/
def lazySkip : List Char → List Char
  | '?' :: rest => rest
  | rest => rest

/-- Attach an optional quantifier to a parsed atom. -/
def withQuant (p : Pat) (cs : List Char) : Option (Pat × List Char) :=
  match cs with
  | '*' :: rest => some (Pat.star p, lazySkip rest)
  | '+' :: rest => some (pplus p, lazySkip rest)
  | '?' :: rest => some (popt p, lazySkip rest)
  | '\x7b' :: rest =>
    match parseBraceQuant rest with
    | some (n, none, rest2) => some (npow p n, lazySkip rest2)
    | some (n, some none, rest2) =>
      some (Pat.seq (npow p n) (Pat.star p), lazySkip rest2)
    | some (n, some (some m), rest2) =>
      if m < n then none
      else some (Pat.seq (npow p n) (nopt p (m - n)), lazySkip rest2)
    | none => some (p, cs)
  | _ => some (p, cs)

mutual

/-- Disjunction: alternatives separated by `|`. -/
def parseDisj : Nat → List Char → Option (Pat × List Char)
  | 0, _ => none
  | Nat.succ fuel, cs =>
    match parseAlt fuel cs with
    | none => none
    | some (p, rest) =>
      match rest with
      | '|' :: rest2 =>
        match parseDisj fuel rest2 with
        | some (q, rest3) => some (Pat.alt p q, rest3)
        | none => none
      | _ => some (p, rest)

/-- Alternative: a sequence of terms, ending at `|`, `)` or the end. -/
def parseAlt : Nat → List Char → Option (Pat × List Char)
  | 0, _ => none
  | Nat.succ fuel, cs =>
    match cs with
    | [] => some (Pat.eps, [])
    | ')' :: _ => some (Pat.eps, cs)
    | '|' :: _ => some (Pat.eps, cs)
    | _ =>
      match parseTerm fuel cs with
      | none => none
      | some (p, rest) =>
        match parseAlt fuel rest with
        | some (q, rest2) => some (Pat.seq p q, rest2)
        | none => none

/-- One term: an anchor, a group, a class, an escape or a literal, with an
optional quantifier.  A quantifier with nothing to repeat, an unterminated
group or class, and the unsupported constructs all fail. -/
def parseTerm : Nat → List Char → Option (Pat × List Char)
  | 0, _ => none
  | Nat.succ fuel, cs =>
    match cs with
    | [] => none
    | '^' :: rest => some (Pat.startAnchor, rest)
    | '$' :: rest => some (Pat.endAnchor, rest)
    | '*' :: _ => none
    | '+' :: _ => none
    | '?' :: _ => none
    | '(' :: rest =>
      let inner : Option (List Char) :=
        match rest with
        | '?' :: ':' :: rest2 => some rest2
        | '?' :: _ => none
        | _ => some rest
      match inner with
      | none => none
      | some inner2 =>
        match parseDisj fuel inner2 with
        | some (p, ')' :: rest3) => withQuant p rest3
        | _ => none
    | '[' :: rest =>
      match parseClassP (cs.length + 2) rest with
      | some (p, rest2) => withQuant p rest2
      | none => none
    | '\\' :: rest =>
      match parseEsc rest with
      | some (p, rest2) => withQuant p rest2
      | none => none
    | c :: rest => withQuant (Pat.lit c) rest

end

/-- The `RegExp` constructor: `some` is a compiled pattern, `none` a
`SyntaxError`. -/
def regexCompile (pattern : String) : Option Pat :=
  let cs := pattern.toList
  match parseDisj (cs.length * 4 + 16) cs with
  | some (p, []) => some p
  | _ => none

/-- `QueryCache.invalidate`: an absent (or falsy, i.e. empty) pattern
clears the whole cache and returns the prior size; otherwise the pattern
is compiled with `new RegExp(pattern, "i")` — which throws on an invalid
pattern — and every matching key is deleted, returning the count. -/
def QueryCache.invalidate {α : Type} (c : QueryCache α) (pattern : Option String) :
    Except String (Nat × QueryCache α) :=
  let clearAll : Except String (Nat × QueryCache α) :=
    .ok (c.entries.length, { c with entries := [] })
  match pattern with
  | none => clearAll
  | some p =>
    if p.toList = [] then clearAll
    else
      match regexCompile p with
      | none => .error "SyntaxError: Invalid regular expression"
      | some re =>
        let deleted := c.entries.filter (fun e => testPat re e.1)
        let kept := c.entries.filter (fun e => !(testPat re e.1))
        .ok (deleted.length, { c with entries := kept })


/-! ## `app/api/query-pipeline/route.ts` — the orchestration pipeline

External calls are supplied as oracle results in `PipelineEnv`:
`classifyRes`/`genRes` model the Gemini calls (together with the schema
fetch inside `generateSQL`), `idxRes`/`colRes` the two introspection
helpers (which catch their own failures and degrade to empty maps),
`execRes`/`countRes` the two `$queryRawUnsafe` calls, and
`embedRes`/`docsRes` the embedding call and the vector search.  The
wall-clock `*_ms` timing fields of the response are measurements, not
computations, and are not modelled. -/

inductive QueryType : Type where
  | structured
  | document
  | hybrid
deriving DecidableEq

/-- `classifyQuery`: lower-case the reply and look for the three labels in
order, defaulting to `structured`; a thrown classification error also
falls back to `structured`. -/
def classifyQuery (res : Except Unit String) : QueryType :=
  match res with
  | .error _ => .structured
  | .ok s =>
    let t := lowerL (jsTrim s.toList)
    if containsSub t ("structured".toList) then .structured
    else if containsSub t ("document".toList) then .document
    else if containsSub t ("hybrid".toList) then .hybrid
    else .structured

/-- Global removal of a token with one optional following newline,
`replace(/TOK\n?/g, "")` (case-sensitive). -/
def removeTokNl (tok : List Char) : List Char → Nat → List Char
  | s, 0 => s
  | [], Nat.succ _ => []
  | c :: cs, Nat.succ fuel =>
    if tok.isPrefixOf (c :: cs) then
      let rest := (c :: cs).drop tok.length
      let rest2 := match rest with
        | '\n' :: r => r
        | r => r
      removeTokNl tok rest2 fuel
    else c :: removeTokNl tok cs fuel

/-- The hard-coded fallback query of `generateSQL`. -/
def fallbackSQL : String := "SELECT * FROM \"Document\" LIMIT 10"

/-- `generateSQL`: on success, trim and strip markdown code fences from the
generated text; when the generation call (or the schema fetch inside it)
throws, silently return the fallback query. -/
def generateSQL (gen : Except Unit String) : List Char :=
  match gen with
  | .error _ => fallbackSQL.toList
  | .ok s =>
    let t1 := jsTrim s.toList
    let tok1 : List Char := backtickCh :: backtickCh :: backtickCh :: ("sql".toList)
    let tok2 : List Char := [backtickCh, backtickCh, backtickCh]
    let t2 := removeTokNl tok1 t1 (t1.length + 1)
    let t3 := removeTokNl tok2 t2 (t2.length + 1)
    jsTrim t3

/-- The `performance` block of the response, minus the unmodelled timing
measurements. -/
structure PipelinePerformance where
  cache_hit : Bool
  cache_stats : CacheStats
deriving DecidableEq

/-- The `pagination` block of the response. -/
structure PaginationOut where
  page : Int
  pageSize : Int
  total : Int
  totalPages : Int
deriving DecidableEq

/-- The `optimization` block of the response. -/
structure OptimizationOut where
  hints : List String
  estimatedCost : String
  costFactors : List String
deriving DecidableEq

/-- The `security` block of the response. -/
structure SecurityOut where
  safe : Bool
  warnings : List String
deriving DecidableEq

/-- A success response (`QueryPipelineResponse` with `success: true`).
`Option` fields model JSON keys that the handler conditionally omits. -/
structure PipelineSuccess where
  success : Bool
  query_type : QueryType
  structured_results : Option (List JVal)
  document_results : Option (List JVal)
  sql : Option String
  performance : PipelinePerformance
  pagination : Option PaginationOut
  optimization : OptimizationOut
  security : SecurityOut
deriving DecidableEq

/-- The fatal responses, with their HTTP status encoded by constructor:
400 missing query, 429 rate limit, 400 security, 500 execution. -/
inductive PipelineError : Type where
  | badRequest (error : String)
  | rateLimited (error : String) (remaining : Nat)
  | securityRejected (error : String) (details : List String)
  | executionFailed (error : String) (details : String)
deriving DecidableEq

/-- The outcome of one `POST` request, together with the final states of
the two shared process-wide structures. -/
inductive PipelineResult : Type where
  | ok (resp : PipelineSuccess) (cache : QueryCache PipelineSuccess)
      (limiter : RateLimiter)
  | err (e : PipelineError) (cache : QueryCache PipelineSuccess)
      (limiter : RateLimiter)
deriving DecidableEq

/-- The request plus the oracle results for every external call the
handler can make. -/
structure PipelineEnv where
  query : String
  page : Int := 1
  pageSize : Int := 50
  enableCache : Bool := true
  userId : String := "anonymous"
  now : Int := 0
  cache0 : QueryCache PipelineSuccess := QueryCache.mk0 PipelineSuccess
  limiter0 : RateLimiter := RateLimiter.mk0
  classifyRes : Except Unit String := .error ()
  genRes : Except Unit String := .error ()
  idxRes : Except Unit (List (List Char × List (List Char))) := .error ()
  colRes : Except Unit (List (List Char × List (List Char))) := .error ()
  execRes : Except String (List JVal) := .ok []
  countRes : Except String Int := .ok 0
  embedRes : Except String Unit := .ok ()
  docsRes : Except String (List JVal) := .ok []

/-- `getTableIndexes` catches its own failure and returns an empty map. -/
def getTableIndexes (env : PipelineEnv) : List (List Char × List (List Char)) :=
  match env.idxRes with
  | .ok m => m
  | .error _ => []

/-- `getTableColumns` likewise degrades to an empty map. -/
def getTableColumns (env : PipelineEnv) : List (List Char × List (List Char)) :=
  match env.colRes with
  | .ok m => m
  | .error _ => []

/-- Step 7 of the handler: the document-search stage.  The whole stage sits
in one `try`; an embedding or vector-search failure is swallowed and the
pipeline simply continues with no document results. -/
def runDocSearch (classification : QueryType) (embedRes : Except String Unit)
    (docsRes : Except String (List JVal)) : List JVal :=
  if classification = .document ∨ classification = .hybrid then
    match embedRes with
    | .error _ => []
    | .ok _ =>
      match docsRes with
      | .error _ => []
      | .ok docs => docs
  else []

/-- `Math.ceil(a / b)` for integers, `b > 0` at every call site. -/
def ceilDivInt (a b : Int) : Int := -((-a).fdiv b)

/-- The final response assembly (step 8), before caching. -/
def assembleResponse (classification : QueryType) (sqlQuery : List Char)
    (securityResult : SecurityCheckResult) (optimizationHints : List String)
    (paginationInfo : Option PaginationInfo) (costEstimate : CostEstimate)
    (structuredResults : List JVal) (documentResults : List JVal)
    (totalCount : Int) (cache1 : QueryCache PipelineSuccess) : PipelineSuccess :=
  { success := true
    query_type := classification
    structured_results :=
      if structuredResults.length > 0 then some structuredResults else none
    document_results :=
      if documentResults.length > 0 then some documentResults else none
    sql := if sqlQuery ≠ [] then some (String.mk sqlQuery) else none
    performance := { cache_hit := false, cache_stats := cache1.getStats }
    pagination :=
      match paginationInfo with
      | some p =>
        if totalCount > 0 then
          some ⟨p.page, p.pageSize, totalCount, ceilDivInt totalCount p.pageSize⟩
        else none
      | none => none
    optimization := ⟨optimizationHints, costEstimate.cost, costEstimate.factors⟩
    security := ⟨securityResult.safe, securityResult.warnings⟩ }

/-- The `POST` handler of the pipeline route, stage by stage: empty-query
check, rate limit, cache lookup, classification, SQL generation and
security validation, optimization (its catch branch is unreachable because
both introspection helpers already catch), execution, document search,
response assembly and cache store. -/
def POST (env : PipelineEnv) : PipelineResult :=
  if jsTrim env.query.toList = [] then
    .err (.badRequest "Query is required") env.cache0 env.limiter0
  else
    let rlStep := env.limiter0.isAllowed env.userId env.now
    if !rlStep.1 then
      .err (.rateLimited "Rate limit exceeded"
          (rlStep.2.getRemainingRequests env.userId env.now).1)
        env.cache0 rlStep.2
    else
      let rl1 := rlStep.2
      let params : JVal := JVal.jobj
        [("page".toList, .jnum env.page), ("pageSize".toList, .jnum env.pageSize)]
      let cacheStep :=
        if env.enableCache then env.cache0.get env.query (some params) env.now
        else (none, env.cache0)
      let cache1 := cacheStep.2
      match cacheStep.1 with
      | some hitv =>
        .ok { hitv.data with
              performance := { hitv.data.performance with cache_hit := true } }
          cache1 rl1
      | none =>
        let classification := classifyQuery env.classifyRes
        let needsSql : Bool :=
          classification = QueryType.structured ∨ classification = QueryType.hybrid
        let sqlQuery : List Char := if needsSql then generateSQL env.genRes else []
        let securityResult : SecurityCheckResult :=
          if needsSql then validateQuerySecurity (String.mk sqlQuery)
          else ⟨true, [], []⟩
        if needsSql && !securityResult.safe then
          .err (.securityRejected "Query failed security validation"
              securityResult.errors)
            cache1 rl1
        else
          let hasSql : Bool := sqlQuery ≠ []
          let opt : Option OptimizedQuery :=
            if hasSql then
              some (optimizeQuery sqlQuery
                { pagination := some (env.page, env.pageSize)
                  tableIndexes := some (getTableIndexes env)
                  tableColumns := some (getTableColumns env)
                  enableTimeout := true
                  timeoutMs := some 30000 })
            else none
          let optimizationHints : List String :=
            match opt with
            | some o => o.hints
            | none => []
          let paginationInfo : Option PaginationInfo :=
            match opt with
            | some o => o.pagination
            | none => none
          let costEstimate : CostEstimate :=
            if hasSql then estimateQueryCost sqlQuery else ⟨"low", []⟩
          let finish : List JVal → Int → PipelineResult := fun rows totalCount =>
            let documentResults := runDocSearch classification env.embedRes env.docsRes
            let response := assembleResponse classification sqlQuery securityResult
              optimizationHints paginationInfo costEstimate rows documentResults
              totalCount cache1
            let cacheFinal :=
              if env.enableCache then
                cache1.set env.query response (some params) (some 300000) env.now
              else cache1
            .ok response cacheFinal rl1
          if needsSql then
            match env.execRes with
            | .error m =>
              .err (.executionFailed "Query execution failed" m) cache1 rl1
            | .ok rows =>
              if paginationInfo.isSome then
                match env.countRes with
                | .error m =>
                  .err (.executionFailed "Query execution failed" m) cache1 rl1
                | .ok n => finish rows n
              else finish rows 0
          else finish [] 0


/-! ## Association-list lemmas (JavaScript `Map` facts) -/

theorem mapFind_nil {κ β : Type} [BEq κ] (k : κ) :
    mapFind ([] : List (κ × β)) k = none := rfl

theorem mapFind_cons {κ β : Type} [BEq κ] (k0 k : κ) (v0 : β) (rest : List (κ × β)) :
    mapFind ((k0, v0) :: rest) k = if k0 == k then some v0 else mapFind rest k := by
  by_cases h : k0 == k <;> simp [mapFind, List.find?, h]

theorem mapFind_mapSet_self {κ β : Type} [BEq κ] [LawfulBEq κ]
    (m : List (κ × β)) (k : κ) (v : β) : mapFind (mapSet m k v) k = some v := by
  induction m with
  | nil => simp [mapSet, mapFind_cons, mapFind_nil]
  | cons e rest ih =>
    obtain ⟨k0, v0⟩ := e
    by_cases h : k0 == k
    · simp [mapSet, h, mapFind_cons]
    · simp [mapSet, h, mapFind_cons, ih]

theorem mapFind_mapSet_ne {κ β : Type} [BEq κ] [LawfulBEq κ]
    (m : List (κ × β)) (k k' : κ) (v : β) (h : k' ≠ k) :
    mapFind (mapSet m k v) k' = mapFind m k' := by
  have hkk : ¬(k == k') := by simpa using fun hc => h (by simpa using hc.symm)
  induction m with
  | nil => simp [mapSet, mapFind_cons, mapFind_nil, hkk]
  | cons e rest ih =>
    obtain ⟨k0, v0⟩ := e
    by_cases h0 : k0 == k
    · have hk0 : k0 = k := by simpa using h0
      subst hk0
      simp [mapSet, mapFind_cons, hkk]
    · simp [mapSet, h0, mapFind_cons, ih]

theorem mapFind_mapDelete_self {κ β : Type} [BEq κ] [LawfulBEq κ]
    (m : List (κ × β)) (k : κ) : mapFind (mapDelete m k) k = none := by
  induction m with
  | nil => simp [mapDelete, mapFind_nil]
  | cons e rest ih =>
    obtain ⟨k0, v0⟩ := e
    by_cases h : k0 == k
    · simpa [mapDelete, List.filter, h] using ih
    · simpa [mapDelete, List.filter, h, mapFind_cons] using ih

theorem mapFind_mapDelete_ne {κ β : Type} [BEq κ] [LawfulBEq κ]
    (m : List (κ × β)) (k k' : κ) (h : k' ≠ k) :
    mapFind (mapDelete m k) k' = mapFind m k' := by
  induction m with
  | nil => simp [mapDelete]
  | cons e rest ih =>
    obtain ⟨k0, v0⟩ := e
    by_cases h0 : k0 == k
    · have hne : ¬(k0 == k') = true := by
        intro hc
        apply h
        have h1 : k0 = k := by simpa using h0
        have h2 : k0 = k' := by simpa using hc
        rw [← h2, h1]
      have hd : mapDelete ((k0, v0) :: rest) k = mapDelete rest k := by
        simp [mapDelete, List.filter, h0]
      rw [hd, ih, mapFind_cons]
      simp [hne]
    · have hd : mapDelete ((k0, v0) :: rest) k = (k0, v0) :: mapDelete rest k := by
        simp [mapDelete, List.filter, h0]
      rw [hd, mapFind_cons, mapFind_cons, ih]

theorem length_mapSet_of_find_none {κ β : Type} [BEq κ]
    (m : List (κ × β)) (k : κ) (v : β) (h : mapFind m k = none) :
    (mapSet m k v).length = m.length + 1 := by
  induction m with
  | nil => simp [mapSet]
  | cons e rest ih =>
    obtain ⟨k0, v0⟩ := e
    by_cases h0 : k0 == k
    · simp [mapFind_cons, h0] at h
    · simp only [mapFind_cons, h0, if_false] at h
      simp [mapSet, h0, ih h]

theorem length_filter_partition {γ : Type} (l : List γ) (p : γ → Bool) :
    (l.filter p).length + (l.filter (fun x => !(p x))).length = l.length := by
  induction l with
  | nil => simp
  | cons a rest ih =>
    by_cases h : p a <;> simp [List.filter, h] <;> omega

theorem mapDelete_of_not_mem {κ β : Type} [BEq κ]
    (l : List (κ × β)) (k0 : κ) (hnod : ∀ e ∈ l, ¬((e.1 == k0) = true)) :
    mapDelete l k0 = l := by
  induction l with
  | nil => rfl
  | cons e rest ih =>
    have h1 := hnod e (by simp)
    have hd : mapDelete (e :: rest) k0 = e :: mapDelete rest k0 := by
      simp [mapDelete, List.filter, h1]
    rw [hd, ih (fun e2 he2 => hnod e2 (by simp [he2]))]

theorem length_mapDelete_head {κ β : Type} [BEq κ] [LawfulBEq κ]
    (k0 : κ) (v0 : β) (rest : List (κ × β))
    (hnod : ∀ e ∈ rest, ¬((e.1 == k0) = true)) :
    (mapDelete ((k0, v0) :: rest) k0).length + 1 = ((k0, v0) :: rest).length := by
  have hd0 : mapDelete ((k0, v0) :: rest) k0 = mapDelete rest k0 := by
    simp [mapDelete, List.filter]
  rw [hd0, mapDelete_of_not_mem rest k0 hnod]
  simp

/-! ## Claim theorems -/

/-- C4: cache TTL correctness.  For every `ttl > 0`, a `set` followed
immediately by a `get` of the same query is a hit carrying the stored
data; and whenever `get` finds an entry whose age exceeds its ttl, it
deletes the entry and returns null — an expired entry is never returned,
even if not yet swept. -/
theorem C4_cache_ttl_correct :
    (∀ (α : Type) (c : QueryCache α) (q : String) (d : α) (ttl now : Int),
      0 < ttl →
      ((c.set q d none (some ttl) now).get q none now).1 =
        some ⟨d, true⟩) ∧
    (∀ (α : Type) (c : QueryCache α) (q : String) (params : Option JVal)
      (now : Int) (e : CacheEntry α),
      mapFind c.entries (generateKey q params) = some e →
      now - e.timestamp > e.ttl →
      (c.get q params now).1 = none ∧
      (c.get q params now).2.entries =
        mapDelete c.entries (generateKey q params)) := by
  constructor
  · intro α c q d ttl now httl
    have hne : ttl ≠ 0 := by omega
    simp only [QueryCache.set, QueryCache.get]
    rw [mapFind_mapSet_self]
    simp [hne]
    have hnn : ¬ ttl < 0 := by omega
    simp [hnn]
  · intro α c q params now e hfind hexp
    simp only [QueryCache.get]
    rw [hfind]
    simp [hexp]

/-- C4 witness: a concrete instantiation with `ttl = 5` (hit immediately
after `set`) and a stored entry of age 10 and ttl 5 (expired: miss and
delete). -/
theorem C4_cache_ttl_correct_witness :
    ((0 : Int) < 5 ∧
      (((QueryCache.mk0 Bool).set "q" true none (some 5) 0).get "q" none 0).1 =
        some ⟨true, true⟩) ∧
    (mapFind (({ maxSize := 1000, defaultTTL := 300000
                , entries := [(generateKey "q" none, ⟨true, 0, 5, 0⟩)] }
        : QueryCache Bool).entries) (generateKey "q" none) =
        some ⟨true, 0, 5, 0⟩ ∧
      (10 : Int) - 0 > 5 ∧
      (({ maxSize := 1000, defaultTTL := 300000
        , entries := [(generateKey "q" none, ⟨true, 0, 5, 0⟩)] }
          : QueryCache Bool).get "q" none 10).1 = none) := by
  refine ⟨⟨by decide, C4_cache_ttl_correct.1 Bool (QueryCache.mk0 Bool) "q" true 5 0 (by decide)⟩,
    ⟨by decide, by decide,
      (C4_cache_ttl_correct.2 Bool _ "q" none 10 ⟨true, 0, 5, 0⟩ (by decide) (by decide)).1⟩⟩


/-- C6 counterexample: a cache constructed with `max_size = 0` is at
capacity while empty (`size >= max_size` holds as `0 >= 0`), yet `set`
evicts nothing and inserts — the size grows, so it is false that "exactly
one entry — the oldest-inserted one — is evicted" whenever `set` is called
at capacity. -/
theorem C6_eviction_counterexample :
    (({ maxSize := 0, defaultTTL := 300000, entries := [] }
        : QueryCache Bool).entries.length ≥
      ({ maxSize := 0, defaultTTL := 300000, entries := [] }
        : QueryCache Bool).maxSize) ∧
    ((({ maxSize := 0, defaultTTL := 300000, entries := [] }
        : QueryCache Bool).set "a" true none none 0).entries.length =
      ({ maxSize := 0, defaultTTL := 300000, entries := [] }
        : QueryCache Bool).entries.length + 1) := by
  decide

/-- The six-key demonstration cache: `max_size = 5` filled with six
distinct queries. -/
def c6demo : QueryCache Bool :=
  ((((((QueryCache.mk0 Bool 5).set "q0" true none none 0).set
    "q1" true none none 0).set "q2" true none none 0).set
    "q3" true none none 0).set "q4" true none none 0).set "q5" true none none 0

/-- C6 (amended): whenever `set` is called while the cache is at capacity
*and nonempty* (with a non-empty oldest key, as every key generated by
`generateKey` is), exactly the first-inserted entry is evicted before the
new entry is stored: the oldest key disappears (unless it is the key being
set), the new entry is present, all other entries are untouched, and — for
a fresh key and duplicate-free stored keys, the invariant of a JavaScript
`Map` — the size is unchanged.  With `max_size = 0` an at-capacity empty
cache inserts without evicting.  In particular, filling a `max_size = 5`
cache with six distinct keys evicts exactly the first: a `get` on it
misses while the sixth key hits. -/
theorem C6_eviction_amended :
    (∀ (α : Type) (c : QueryCache α) (q : String) (d : α) (params : Option JVal)
      (ttl : Option Int) (now : Int) (k0 : List Char) (e0 : CacheEntry α),
      c.entries.head? = some (k0, e0) →
      c.entries.length ≥ c.maxSize →
      k0 ≠ [] →
      (k0 ≠ generateKey q params →
        mapFind (c.set q d params ttl now).entries k0 = none) ∧
      (∃ e, mapFind (c.set q d params ttl now).entries (generateKey q params) =
          some e ∧ e.data = d ∧ e.hits = 0 ∧ e.timestamp = now) ∧
      (∀ k', k' ≠ k0 → k' ≠ generateKey q params →
        mapFind (c.set q d params ttl now).entries k' = mapFind c.entries k') ∧
      ((∀ e ∈ c.entries.tail, ¬((e.1 == k0) = true)) →
        k0 ≠ generateKey q params →
        mapFind c.entries (generateKey q params) = none →
        (c.set q d params ttl now).entries.length = c.entries.length)) ∧
    (c6demo.get "q0" none 0).1 = none ∧
    (c6demo.get "q5" none 0).1 = some ⟨true, true⟩ := by
  refine ⟨?_, by decide, by decide⟩
  intro α c q d params ttl now k0 e0 hhead hcap hk0ne
  have hcap2 : c.maxSize ≤ c.entries.length := hcap
  have hset : (c.set q d params ttl now).entries =
      mapSet (mapDelete c.entries k0) (generateKey q params)
        ⟨d, now
        , (match ttl with
           | some t0 => if t0 ≠ 0 then t0 else c.defaultTTL
           | none => c.defaultTTL)
        , 0⟩ := by
    simp only [QueryCache.set, ge_iff_le, hcap2, if_true, hhead, hk0ne, ite_true]
    rw [if_pos hk0ne]
  generalize hT : (match ttl with
    | some t0 => if t0 ≠ 0 then t0 else c.defaultTTL
    | none => c.defaultTTL) = t at hset
  refine ⟨?_, ?_, ?_, ?_⟩
  · intro hne
    rw [hset, mapFind_mapSet_ne _ _ _ _ hne, mapFind_mapDelete_self]
  · refine ⟨⟨d, now, t, 0⟩, ?_, rfl, rfl, rfl⟩
    rw [hset, mapFind_mapSet_self]
  · intro k' h1 h2
    rw [hset, mapFind_mapSet_ne _ _ _ _ h2, mapFind_mapDelete_ne _ _ _ h1]
  · intro hnod hne hfresh
    have hfresh2 : mapFind (mapDelete c.entries k0) (generateKey q params) = none := by
      rw [mapFind_mapDelete_ne _ _ _ (fun h => hne h.symm)]
      exact hfresh
    rw [hset, length_mapSet_of_find_none _ _ _ hfresh2]
    obtain ⟨tl, hc⟩ : ∃ tl, c.entries = (k0, e0) :: tl :=
      ⟨c.entries.tail, List.eq_cons_of_mem_head? (by rw [hhead]; simp)⟩
    rw [hc] at hnod
    simp only [List.tail_cons] at hnod
    rw [hc]
    exact length_mapDelete_head k0 e0 tl hnod

/-- C6 witness: a concrete at-capacity cache of size one; setting a fresh
key evicts exactly the stored key. -/
theorem C6_eviction_amended_witness :
    ((⟨1, 300000, [(generateKey "old" none, ⟨false, 0, 300000, 0⟩)]⟩
        : QueryCache Bool).entries.head? =
      some (generateKey "old" none, ⟨false, 0, 300000, 0⟩)) ∧
    ((⟨1, 300000, [(generateKey "old" none, ⟨false, 0, 300000, 0⟩)]⟩
        : QueryCache Bool).set "new" true none none 7).entries.length =
      (⟨1, 300000, [(generateKey "old" none, ⟨false, 0, 300000, 0⟩)]⟩
        : QueryCache Bool).entries.length := by
  refine ⟨by decide, ?_⟩
  exact (C6_eviction_amended.1 Bool
      (⟨1, 300000, [(generateKey "old" none, ⟨false, 0, 300000, 0⟩)]⟩
        : QueryCache Bool) "new" true none none 7
      (generateKey "old" none) ⟨false, 0, 300000, 0⟩ (by decide) (by decide)
      (by decide)).2.2.2 (by decide) (by decide) (by decide)


/-- C7: sliding-window rate limiting.  `isAllowed` counts only stored
timestamps within the trailing window, allows and records exactly when the
count is below `maxRequests`, denies without recording otherwise; with
`maxRequests = 5` and `windowMs = 1000`, five consecutive calls are
allowed, the sixth is denied, and a call after the window has elapsed is
allowed again. -/
theorem C7_rate_limiter_window :
    (∀ (rl : RateLimiter) (id : String) (now : Int),
      ((rl.isAllowed id now).1 = true ↔
        ((rl.window id).filter (fun t => now - t < rl.windowMs)).length <
          rl.maxRequests) ∧
      ((rl.isAllowed id now).1 = true →
        (rl.isAllowed id now).2.requests =
          mapSet rl.requests id
            (((rl.window id).filter (fun t => now - t < rl.windowMs)) ++ [now])) ∧
      ((rl.isAllowed id now).1 = false → (rl.isAllowed id now).2 = rl)) ∧
    (let l0 := RateLimiter.mk0 5 1000
     let s1 := l0.isAllowed "u" 0
     let s2 := s1.2.isAllowed "u" 1
     let s3 := s2.2.isAllowed "u" 2
     let s4 := s3.2.isAllowed "u" 3
     let s5 := s4.2.isAllowed "u" 4
     let s6 := s5.2.isAllowed "u" 4
     let s7 := s6.2.isAllowed "u" 1005
     s1.1 = true ∧ s2.1 = true ∧ s3.1 = true ∧ s4.1 = true ∧ s5.1 = true ∧
       s6.1 = false ∧ s7.1 = true) := by
  constructor
  · intro rl id now
    refine ⟨?_, ?_, ?_⟩
    · simp only [RateLimiter.isAllowed]
      by_cases h : ((rl.window id).filter (fun t => now - t < rl.windowMs)).length ≥
          rl.maxRequests
      · simp [h]
      · simp [h]
        omega
    · intro hallow
      simp only [RateLimiter.isAllowed] at hallow ⊢
      by_cases h : ((rl.window id).filter (fun t => now - t < rl.windowMs)).length ≥
          rl.maxRequests
      · simp [h] at hallow
      · simp [h]
    · intro hdeny
      simp only [RateLimiter.isAllowed] at hdeny ⊢
      by_cases h : ((rl.window id).filter (fun t => now - t < rl.windowMs)).length ≥
          rl.maxRequests
      · simp [h]
      · simp [h] at hdeny
  · decide

/-- C7 witness: the first universal clause instantiated at a fresh
limiter, discharging the allow-direction hypothesis. -/
theorem C7_rate_limiter_window_witness :
    ((RateLimiter.mk0 5 1000).isAllowed "u" 0).1 = true ∧
    ((RateLimiter.mk0 5 1000).isAllowed "u" 0).2.requests =
      mapSet (RateLimiter.mk0 5 1000).requests "u"
        ((((RateLimiter.mk0 5 1000).window "u").filter
          (fun t => (0 : Int) - t < (RateLimiter.mk0 5 1000).windowMs)) ++ [0]) := by
  have h1 := (C7_rate_limiter_window.1 (RateLimiter.mk0 5 1000) "u" 0).1.mpr (by decide)
  exact ⟨h1, (C7_rate_limiter_window.1 (RateLimiter.mk0 5 1000) "u" 0).2.1 h1⟩

/-- C10: frame effect of the denial path.  A denied `isAllowed` call
returns the limiter state entirely unchanged (the purged list is computed
on a temporary copy and never written back), and `getRemainingRequests`
never mutates the stored map. -/
theorem C10_rate_limiter_frame :
    (∀ (rl : RateLimiter) (id : String) (now : Int),
      (rl.isAllowed id now).1 = false → (rl.isAllowed id now).2 = rl) ∧
    (∀ (rl : RateLimiter) (id : String) (now : Int),
      (rl.getRemainingRequests id now).2 = rl) := by
  constructor
  · intro rl id now hdeny
    simp only [RateLimiter.isAllowed] at hdeny ⊢
    by_cases h : ((rl.window id).filter (fun t => now - t < rl.windowMs)).length ≥
        rl.maxRequests
    · simp [h]
    · simp [h] at hdeny
  · intro rl id now
    rfl

/-- C10 witness: a limiter at capacity (one stale-free timestamp, limit
one) denies and is returned with its stored window intact. -/
theorem C10_rate_limiter_frame_witness :
    ((⟨1, 1000, [("u", [0])]⟩ : RateLimiter).isAllowed "u" 1).1 = false ∧
    ((⟨1, 1000, [("u", [0])]⟩ : RateLimiter).isAllowed "u" 1).2 =
      (⟨1, 1000, [("u", [0])]⟩ : RateLimiter) ∧
    ((⟨1, 1000, [("u", [0])]⟩ : RateLimiter).getRemainingRequests "u" 1).2 =
      (⟨1, 1000, [("u", [0])]⟩ : RateLimiter) := by
  refine ⟨by decide, ?_, ?_⟩
  · exact C10_rate_limiter_frame.1 (⟨1, 1000, [("u", [0])]⟩ : RateLimiter) "u" 1
      (by decide)
  · exact C10_rate_limiter_frame.2 (⟨1, 1000, [("u", [0])]⟩ : RateLimiter) "u" 1


/-- C3 counterexample: `invalidate("(")` does not return a count — the
`new RegExp` call inside it throws a `SyntaxError` (an unterminated group
is an invalid regular expression), so not every pattern string is handled
without raising. -/
theorem C3_invalidate_raises_counterexample :
    (⟨1000, 300000, [(generateKey "q" none, ⟨true, 0, 300000, 0⟩)]⟩
        : QueryCache Bool).invalidate (some "(") =
      .error "SyntaxError: Invalid regular expression" := by
  rfl

/-- C3 (amended): `get`, `set`, `get_stats` and `cleanup` are total and a
lookup of an absent key is a plain miss; `invalidate` returns normally —
with the count of deleted entries — for an absent pattern and for every
pattern string that is a valid regular expression, but the `RegExp`
constructor inside it throws on a syntactically invalid pattern such as
`"("`. -/
theorem C3_cache_failure_semantics_amended :
    (∀ (α : Type) (c : QueryCache α) (p : String),
      (regexCompile p).isSome →
      ∃ (n : Nat) (c2 : QueryCache α),
        c.invalidate (some p) = .ok (n, c2) ∧
        n + c2.entries.length = c.entries.length) ∧
    (∀ (α : Type) (c : QueryCache α),
      c.invalidate none = .ok (c.entries.length, { c with entries := [] })) ∧
    (∀ (α : Type) (c : QueryCache α) (q : String) (params : Option JVal)
      (now : Int),
      mapFind c.entries (generateKey q params) = none →
      c.get q params now = (none, c)) := by
  refine ⟨?_, ?_, ?_⟩
  · intro α c p hcomp
    by_cases hp : p.toList = []
    · refine ⟨c.entries.length, { c with entries := [] }, ?_, by simp⟩
      simp [QueryCache.invalidate, show p.data = [] from hp]
    · obtain ⟨re, hre⟩ := Option.isSome_iff_exists.mp hcomp
      refine ⟨(c.entries.filter (fun e => testPat re e.1)).length
        , { c with entries := c.entries.filter (fun e => !(testPat re e.1)) }
        , ?_, ?_⟩
      · simp only [QueryCache.invalidate]
        rw [if_neg hp, hre]
      · simpa using length_filter_partition c.entries (fun e => testPat re e.1)
  · intro α c
    rfl
  · intro α c q params now hmiss
    simp [QueryCache.get, hmiss]

/-- C3 witness: the valid pattern `users` deletes the single matching
entry of a two-entry cache and returns normally. -/
theorem C3_cache_failure_semantics_amended_witness :
    (regexCompile "users").isSome = true ∧
    (∃ (n : Nat) (c2 : QueryCache Bool),
      (⟨1000, 300000
        , [(generateKey "users query" none, ⟨true, 0, 300000, 0⟩)
          , (generateKey "other" none, ⟨false, 0, 300000, 0⟩)]⟩
          : QueryCache Bool).invalidate (some "users") = .ok (n, c2) ∧
      n + c2.entries.length =
        (⟨1000, 300000
          , [(generateKey "users query" none, ⟨true, 0, 300000, 0⟩)
            , (generateKey "other" none, ⟨false, 0, 300000, 0⟩)]⟩
            : QueryCache Bool).entries.length) := by
  exact ⟨by decide
    , C3_cache_failure_semantics_amended.1 Bool
        (⟨1000, 300000
          , [(generateKey "users query" none, ⟨true, 0, 300000, 0⟩)
            , (generateKey "other" none, ⟨false, 0, 300000, 0⟩)]⟩
          : QueryCache Bool) "users" (by decide)⟩


/-- C8: the injection detector on the three concrete inputs of the spec —
the UNION-based probe and the stacked `DROP TABLE` are flagged unsafe,
and the plain departmental SELECT is safe with no errors. -/
theorem C8_injection_detector_concrete :
    (detectSQLInjection
      "SELECT * FROM t WHERE x=1 UNION SELECT password FROM admin").safe = false ∧
    (detectSQLInjection "SELECT * FROM t; DROP TABLE users").safe = false ∧
    (detectSQLInjection
      (mkS "SELECT name, email FROM employees WHERE department = @Sales@")).safe =
      true ∧
    (detectSQLInjection
      (mkS "SELECT name, email FROM employees WHERE department = @Sales@")).errors =
      [] := by
  refine ⟨by decide, by decide, by decide, by decide⟩

/-- The two standard pagination hints never coincide with the capping
hint (their fixed prefixes differ). -/
theorem paginating_hint_ne_cap (a b : String) :
    "Paginating: page " ++ a ++ ", " ++ b ++ " rows per page" ≠
      "Page size capped at 1000 rows for performance" := by
  intro h
  have h3 : (['P', 'a', 'g', 'i'] : List Char) = ['P', 'a', 'g', 'e'] :=
    congrArg (fun s : String => s.data.take 4) h
  simp at h3

theorem offset_hint_ne_cap (a b : String) :
    "Offset: " ++ a ++ ", Limit: " ++ b ≠
      "Page size capped at 1000 rows for performance" := by
  intro h
  have h3 : (['O'] : List Char) = ['P'] :=
    congrArg (fun s : String => s.data.take 1) h
  simp at h3

/-- C9 counterexample: `page_size = 5` is outside the documented
`[10, 1000]` range, yet `paginateQuery` clamps it silently — the hint list
is exactly the two standard hints and contains no hint noting the cap. -/
theorem C9_pagination_hint_counterexample :
    ((5 : Int) < 10) ∧
    (paginateQuery (("SELECT * FROM t").toList) 1 5).hints =
      ["Paginating: page 1, 10 rows per page", "Offset: 0, Limit: 10"] := by
  refine ⟨by decide, by decide⟩

/-- C9 (amended): `paginateQuery` clamps `page` to at least 1 and
`page_size` into `[10, 1000]`, strips any pre-existing LIMIT/OFFSET and a
trailing semicolon, and appends the clamped `LIMIT`/`OFFSET`; the hint
noting the cap is emitted *only* when `page_size` exceeds 1000 —
out-of-range values below the minimum (and pages below 1) are clamped
silently.  Concretely, `page = 2, page_size = 25` yields `LIMIT 25` and
`OFFSET 25`, and `page_size = 5000` yields `LIMIT 1000` plus the capping
hint. -/
theorem C9_pagination_transform_amended :
    (∀ (sql : List Char) (page pageSize : Int),
      (paginateQuery sql page pageSize).pagination =
        some ⟨max 1 page, min 1000 (max 10 pageSize)
          , (max 1 page - 1) * min 1000 (max 10 pageSize)
          , min 1000 (max 10 pageSize)⟩ ∧
      (paginateQuery sql page pageSize).sql =
        cleanSqlForPagination sql ++
          ('\n' :: (("LIMIT ".toList) ++ serInt (min 1000 (max 10 pageSize)) ++
            (" OFFSET ".toList) ++
            serInt ((max 1 page - 1) * min 1000 (max 10 pageSize)))) ∧
      (("Page size capped at 1000 rows for performance" ∈
          (paginateQuery sql page pageSize).hints) ↔ pageSize > 1000)) ∧
    containsSub (paginateQuery (("SELECT * FROM t").toList) 2 25).sql
      (("LIMIT 25").toList) = true ∧
    containsSub (paginateQuery (("SELECT * FROM t").toList) 2 25).sql
      (("OFFSET 25").toList) = true ∧
    containsSub (paginateQuery (("SELECT * FROM t").toList) 1 5000).sql
      (("LIMIT 1000").toList) = true ∧
    "Page size capped at 1000 rows for performance" ∈
      (paginateQuery (("SELECT * FROM t").toList) 1 5000).hints := by
  refine ⟨?_, by decide, by decide, by decide, by decide⟩
  intro sql page pageSize
  refine ⟨rfl, rfl, ?_⟩
  by_cases h : pageSize > 1000
  · have hh : "Page size capped at 1000 rows for performance" ∈
        (paginateQuery sql page pageSize).hints := by
      simp [paginateQuery, h]
    exact ⟨fun _ => h, fun _ => hh⟩
  · have hh : (paginateQuery sql page pageSize).hints =
        ["Paginating: page " ++ intStr (max 1 page) ++ ", " ++
          intStr (min 1000 (max 10 pageSize)) ++ " rows per page"
        , "Offset: " ++ intStr ((max 1 page - 1) * min 1000 (max 10 pageSize)) ++
          ", Limit: " ++ intStr (min 1000 (max 10 pageSize))] := by
      simp [paginateQuery, h]
    rw [hh]
    constructor
    · intro hmem
      simp only [List.mem_cons, List.not_mem_nil, or_false] at hmem
      rcases hmem with h1 | h1
      · exact absurd h1.symm (paginating_hint_ne_cap _ _)
      · exact absurd h1.symm (offset_hint_ne_cap _ _)
    · intro hc
      exact absurd hc h


theorem optQ_pagination (sql : List Char) (opts : OptimizeOptions) (p ps : Int)
    (h : opts.pagination = some (p, ps)) :
    (optimizeQuery sql opts).pagination = (paginateQuery sql p ps).pagination := by
  simp only [optimizeQuery, h]
  rcases opts.tableIndexes with _ | m1 <;> rcases opts.tableColumns with _ | m2 <;>
    rcases het : opts.enableTimeout <;> simp [het]

def resultResponse : PipelineResult → Option PipelineSuccess
  | .ok r _ _ => some r
  | .err _ _ _ => none

def envC1 : PipelineEnv :=
  { query := "show employees", enableCache := false
    , classifyRes := .ok "structured", genRes := .error ()
    , execRes := .ok [JVal.jstr ("row1".toList)], countRes := .ok 1 }

def envC2 : PipelineEnv :=
  { query := "employees and policies", enableCache := false
    , classifyRes := .ok "hybrid", genRes := .ok "SELECT name FROM users"
    , execRes := .ok [JVal.jstr ("row1".toList)], countRes := .ok 1
    , embedRes := .error "embedding service down" }

theorem POST_genError_fallback (env : PipelineEnv) (rows : List JVal) (n : Int)
    (h1 : env.genRes = .error ())
    (h2 : classifyQuery env.classifyRes ≠ .document)
    (h3 : jsTrim env.query.toList ≠ [])
    (h4 : (env.limiter0.isAllowed env.userId env.now).1 = true)
    (h5 : env.enableCache = true →
      (env.cache0.get env.query
        (some (JVal.jobj [("page".toList, .jnum env.page),
          ("pageSize".toList, .jnum env.pageSize)])) env.now).1 = none)
    (h6 : env.execRes = .ok rows)
    (h7 : env.countRes = .ok n) :
    ∃ r c l, POST env = .ok r c l ∧ r.success = true ∧ r.sql = some fallbackSQL ∧
      r.structured_results = (if rows.length > 0 then some rows else none) := by
  have hfb : String.mk (fallbackSQL.toList) = fallbackSQL := rfl
  have hsec : (validateQuerySecurity fallbackSQL).safe = true := by decide
  have hne : fallbackSQL.toList ≠ [] := by decide
  have hpag : ∀ m1 m2, (optimizeQuery (fallbackSQL.toList)
      { pagination := some (env.page, env.pageSize), tableIndexes := m1
        , tableColumns := m2, enableTimeout := true
        , timeoutMs := some 30000 }).pagination =
      some ⟨max 1 env.page, min 1000 (max 10 env.pageSize)
        , (max 1 env.page - 1) * min 1000 (max 10 env.pageSize)
        , min 1000 (max 10 env.pageSize)⟩ := by
    intro m1 m2
    rw [optQ_pagination _ _ env.page env.pageSize rfl]
    rfl
  have hmiss : (if env.enableCache = true then
      env.cache0.get env.query
        (some (JVal.jobj [("page".toList, .jnum env.page),
          ("pageSize".toList, .jnum env.pageSize)])) env.now
      else (none, env.cache0)).1 = none := by
    by_cases he : env.enableCache = true
    · rw [if_pos he]
      exact h5 he
    · rw [if_neg he]
  rcases hcase : classifyQuery env.classifyRes with _ | _ | _
  case document => exact absurd hcase h2
  case structured =>
    have hneed : (decide (QueryType.structured = QueryType.structured ∨
        QueryType.structured = QueryType.hybrid)) = true := by decide
    have hne2 : (decide (fallbackSQL.toList ≠ [])) = true := by decide
    simp only [POST, if_neg h3, h4, Bool.not_true, Bool.false_eq_true, if_false,
      hmiss, hcase, h1, generateSQL, hneed, hne2, eq_self_iff_true, if_true,
      hsec, Bool.true_and, Bool.and_true, h6, h7, hpag, Option.isSome_some]
    refine ⟨_, _, _, rfl, rfl, ?_, rfl⟩
    simp [assembleResponse, hne, hfb]
    exact hne
  case hybrid =>
    have hneed : (decide (QueryType.hybrid = QueryType.structured ∨
        QueryType.hybrid = QueryType.hybrid)) = true := by decide
    have hne2 : (decide (fallbackSQL.toList ≠ [])) = true := by decide
    simp only [POST, if_neg h3, h4, Bool.not_true, Bool.false_eq_true, if_false,
      hmiss, hcase, h1, generateSQL, hneed, hne2, eq_self_iff_true, if_true,
      hsec, Bool.true_and, Bool.and_true, h6, h7, hpag, Option.isSome_some]
    refine ⟨_, _, _, rfl, rfl, ?_, rfl⟩
    simp [assembleResponse, hne, hfb]
    exact hne

theorem POST_nonSelect_rejected (env : PipelineEnv) (s : String)
    (h1 : env.genRes = .ok s)
    (hS : ("SELECT".toList).isPrefixOf
      (upperL (jsTrim (generateSQL env.genRes))) = false)
    (hW : ("WITH".toList).isPrefixOf
      (upperL (jsTrim (generateSQL env.genRes))) = false)
    (h2 : classifyQuery env.classifyRes ≠ .document)
    (h3 : jsTrim env.query.toList ≠ [])
    (h4 : (env.limiter0.isAllowed env.userId env.now).1 = true)
    (h5 : env.enableCache = true →
      (env.cache0.get env.query
        (some (JVal.jobj [("page".toList, .jnum env.page),
          ("pageSize".toList, .jnum env.pageSize)])) env.now).1 = none) :
    ∃ c l, POST env = .err
      (.securityRejected "Query failed security validation"
        (validateQuerySecurity (String.mk (generateSQL env.genRes))).errors) c l := by
  have hS2 : (['S', 'E', 'L', 'E', 'C', 'T'] : List Char).isPrefixOf
      (upperL (jsTrim (generateSQL env.genRes))) = false := hS
  have hW2 : (['W', 'I', 'T', 'H'] : List Char).isPrefixOf
      (upperL (jsTrim (generateSQL env.genRes))) = false := hW
  have herr : (enforceReadOnly (String.mk (generateSQL env.genRes))).errors ≠ [] := by
    simp only [enforceReadOnly]
    simp [hS2, hW2]
  have hunsafe : (validateQuerySecurity (String.mk (generateSQL env.genRes))).safe =
      false := by
    simp only [validateQuerySecurity, List.map, List.flatten]
    have hnn : ((detectSQLInjection (String.mk (generateSQL env.genRes))).errors ++
        ((enforceReadOnly (String.mk (generateSQL env.genRes))).errors ++
          ((validateQueryStructure (String.mk (generateSQL env.genRes))).errors ++
            []))) ≠ [] := by
      intro hnil
      rcases List.append_eq_nil.mp hnil with ⟨_, hbc⟩
      rcases List.append_eq_nil.mp hbc with ⟨hb, _⟩
      exact herr hb
    simp only [Bool.eq_false_iff, ne_eq, List.isEmpty_iff]
    exact hnn
  have hmiss : (if env.enableCache = true then
      env.cache0.get env.query
        (some (JVal.jobj [("page".toList, .jnum env.page),
          ("pageSize".toList, .jnum env.pageSize)])) env.now
      else (none, env.cache0)).1 = none := by
    by_cases he : env.enableCache = true
    · rw [if_pos he]
      exact h5 he
    · rw [if_neg he]
  rcases hcase : classifyQuery env.classifyRes with _ | _ | _
  case document => exact absurd hcase h2
  case structured =>
    have hneed : (decide (QueryType.structured = QueryType.structured ∨
        QueryType.structured = QueryType.hybrid)) = true := by decide
    have hneed2 : (decide (True ∨ QueryType.structured = QueryType.hybrid)) =
        true := by decide
    simp only [POST, if_neg h3, h4, Bool.not_true, Bool.false_eq_true, if_false,
      hmiss, hcase, hneed, hneed2, eq_self_iff_true, if_true, hunsafe,
      Bool.not_false, Bool.true_and, Bool.and_true]
    exact ⟨_, _, rfl⟩
  case hybrid =>
    have hneed : (decide (QueryType.hybrid = QueryType.structured ∨
        QueryType.hybrid = QueryType.hybrid)) = true := by decide
    have hneed2 : (decide (QueryType.hybrid = QueryType.structured ∨ True)) =
        true := by decide
    simp only [POST, if_neg h3, h4, Bool.not_true, Bool.false_eq_true, if_false,
      hmiss, hcase, hneed, hneed2, eq_self_iff_true, if_true, hunsafe,
      Bool.not_false, Bool.true_and, Bool.and_true]
    exact ⟨_, _, rfl⟩

theorem runDocSearch_idem (cls : QueryType) (e : Except String Unit)
    (d : Except String (List JVal)) :
    runDocSearch cls (.ok ()) (.ok (runDocSearch cls e d)) = runDocSearch cls e d := by
  rcases cls <;> simp [runDocSearch]

theorem POST_docsearch_invisible (env : PipelineEnv) :
    POST env = POST { env with
      embedRes := .ok ()
      docsRes := .ok (runDocSearch (classifyQuery env.classifyRes)
        env.embedRes env.docsRes) } := by
  simp only [POST, runDocSearch_idem, getTableIndexes, getTableColumns]

theorem POST_hybrid_docfail_silent (env : PipelineEnv) (rows : List JVal) (n : Int)
    (hcls : classifyQuery env.classifyRes = .hybrid)
    (hdoc : (∃ m, env.embedRes = .error m) ∨ (∃ m, env.docsRes = .error m))
    (hsafe : (validateQuerySecurity (String.mk (generateSQL env.genRes))).safe = true)
    (h3 : jsTrim env.query.toList ≠ [])
    (h4 : (env.limiter0.isAllowed env.userId env.now).1 = true)
    (h5 : env.enableCache = true →
      (env.cache0.get env.query
        (some (JVal.jobj [("page".toList, .jnum env.page),
          ("pageSize".toList, .jnum env.pageSize)])) env.now).1 = none)
    (h6 : env.execRes = .ok rows)
    (h7 : env.countRes = .ok n) :
    (POST env = POST { env with embedRes := .ok (), docsRes := .ok [] }) ∧
    ∃ r c l, POST env = .ok r c l ∧ r.success = true ∧
      r.document_results = none ∧
      r.structured_results = (if rows.length > 0 then some rows else none) ∧
      r.security.warnings =
        (validateQuerySecurity (String.mk (generateSQL env.genRes))).warnings := by
  have hdocnil : runDocSearch QueryType.hybrid env.embedRes env.docsRes = [] := by
    rcases hdoc with ⟨m, hm⟩ | ⟨m, hm⟩
    · simp [runDocSearch, hm]
    · rcases he2 : env.embedRes with m2 | u
      · simp [runDocSearch, he2]
      · simp [runDocSearch, he2, hm]
  have hsqlne : generateSQL env.genRes ≠ [] := by
    intro h0
    rw [h0] at hsafe
    exact absurd hsafe (by decide)
  have hmiss : (if env.enableCache = true then
      env.cache0.get env.query
        (some (JVal.jobj [("page".toList, .jnum env.page),
          ("pageSize".toList, .jnum env.pageSize)])) env.now
      else (none, env.cache0)).1 = none := by
    by_cases he : env.enableCache = true
    · rw [if_pos he]
      exact h5 he
    · rw [if_neg he]
  constructor
  · have h := POST_docsearch_invisible env
    rw [hcls, hdocnil] at h
    exact h
  · have hneed : (decide (QueryType.hybrid = QueryType.structured ∨
        QueryType.hybrid = QueryType.hybrid)) = true := by decide
    have hneed2 : (decide (QueryType.hybrid = QueryType.structured ∨ True)) =
        true := by decide
    have hne2 : (decide (generateSQL env.genRes ≠ [])) = true := by
      simpa using hsqlne
    have hpag : ∀ m1 m2, (optimizeQuery (generateSQL env.genRes)
        { pagination := some (env.page, env.pageSize), tableIndexes := m1
          , tableColumns := m2, enableTimeout := true
          , timeoutMs := some 30000 }).pagination =
        some ⟨max 1 env.page, min 1000 (max 10 env.pageSize)
          , (max 1 env.page - 1) * min 1000 (max 10 env.pageSize)
          , min 1000 (max 10 env.pageSize)⟩ := by
      intro m1 m2
      rw [optQ_pagination _ _ env.page env.pageSize rfl]
      rfl
    simp only [POST, if_neg h3, h4, Bool.not_true, Bool.false_eq_true, if_false,
      hmiss, hcls, hneed, hneed2, eq_self_iff_true, hne2, if_true, hsafe,
      Bool.true_and, Bool.and_true, h6, h7, hpag, Option.isSome_some, hdocnil]
    refine ⟨_, _, _, rfl, rfl, ?_, rfl, rfl⟩
    simp [assembleResponse]

/-- C1 counterexample: on a request whose external SQL-generation call
errors (`envC1.genRes = .error ()`), the pipeline does NOT fail: it
silently substitutes the fallback query `SELECT * FROM "Document" LIMIT 10`
and executes it, returning a success response carrying that SQL. -/
theorem C1_generation_failure_counterexample :
    envC1.genRes = Except.error () ∧
    (resultResponse (POST envC1)).map
        (fun r => (r.success, r.sql, r.structured_results)) =
      some (true, some fallbackSQL, some [JVal.jstr ("row1".toList)]) :=
  ⟨rfl, by decide⟩

/-- C1 (amended): when the external generation call errors, the pipeline
silently substitutes the fallback query `SELECT * FROM "Document" LIMIT 10`
and executes it, returning success with that SQL; only when generation
returns text carrying no leading SELECT/WITH token is the request fatal,
rejected by security validation (read-only enforcement) with the error
response "Query failed security validation". -/
theorem C1_generation_failure_amended :
    (∀ (env : PipelineEnv) (rows : List JVal) (n : Int),
      env.genRes = .error () →
      classifyQuery env.classifyRes ≠ .document →
      jsTrim env.query.toList ≠ [] →
      (env.limiter0.isAllowed env.userId env.now).1 = true →
      (env.enableCache = true →
        (env.cache0.get env.query
          (some (JVal.jobj [("page".toList, .jnum env.page),
            ("pageSize".toList, .jnum env.pageSize)])) env.now).1 = none) →
      env.execRes = .ok rows →
      env.countRes = .ok n →
      ∃ r c l, POST env = .ok r c l ∧ r.success = true ∧
        r.sql = some fallbackSQL ∧
        r.structured_results = (if rows.length > 0 then some rows else none)) ∧
    (∀ (env : PipelineEnv) (s : String),
      env.genRes = .ok s →
      ("SELECT".toList).isPrefixOf
        (upperL (jsTrim (generateSQL env.genRes))) = false →
      ("WITH".toList).isPrefixOf
        (upperL (jsTrim (generateSQL env.genRes))) = false →
      classifyQuery env.classifyRes ≠ .document →
      jsTrim env.query.toList ≠ [] →
      (env.limiter0.isAllowed env.userId env.now).1 = true →
      (env.enableCache = true →
        (env.cache0.get env.query
          (some (JVal.jobj [("page".toList, .jnum env.page),
            ("pageSize".toList, .jnum env.pageSize)])) env.now).1 = none) →
      ∃ c l, POST env = .err
        (.securityRejected "Query failed security validation"
          (validateQuerySecurity (String.mk (generateSQL env.genRes))).errors)
        c l) :=
  ⟨POST_genError_fallback, POST_nonSelect_rejected⟩

/-- C1 witness: the fallback branch of the amended statement instantiated
at the concrete environment `envC1`. -/
theorem C1_generation_failure_amended_witness :
    ∃ r c l, POST envC1 = .ok r c l ∧ r.success = true ∧
      r.sql = some fallbackSQL ∧
      r.structured_results =
        (if ([JVal.jstr ("row1".toList)] : List JVal).length > 0 then
          some [JVal.jstr ("row1".toList)] else none) :=
  C1_generation_failure_amended.1 envC1 [JVal.jstr ("row1".toList)] 1 rfl
    (by decide) (by decide) (by decide) (fun h => absurd h (by decide)) rfl rfl

/-- C2 counterexample: on a hybrid request whose embedding call throws
(`envC2.embedRes = .error _`) while the structured path succeeds, the
response is byte-for-byte identical to the response of the same request
whose document search succeeded with zero matches — success with
structured_results populated, document_results absent, and NO warning of
any kind — so the caller cannot distinguish search failure from no
matches. -/
theorem C2_document_failure_counterexample :
    envC2.embedRes = Except.error "embedding service down" ∧
    POST envC2 = POST { envC2 with embedRes := .ok (), docsRes := .ok [] } ∧
    (resultResponse (POST envC2)).map
        (fun r => (r.success, r.security.warnings, r.document_results,
          r.structured_results)) =
      some (true, [], none, some [JVal.jstr ("row1".toList)]) :=
  ⟨rfl, rfl, by decide⟩

/-- C2 (amended): for every hybrid request whose embedding or vector-search
call throws after the structured path succeeded, the pipeline still returns
a success response with structured_results populated and document_results
absent, but NO document warning is added anywhere in the response — the
warnings list is exactly what security validation produced, and the whole
response equals that of a request whose document search found nothing. -/
theorem C2_document_failure_amended (env : PipelineEnv) (rows : List JVal) (n : Int)
    (hcls : classifyQuery env.classifyRes = .hybrid)
    (hdoc : (∃ m, env.embedRes = .error m) ∨ (∃ m, env.docsRes = .error m))
    (hsafe : (validateQuerySecurity (String.mk (generateSQL env.genRes))).safe = true)
    (h3 : jsTrim env.query.toList ≠ [])
    (h4 : (env.limiter0.isAllowed env.userId env.now).1 = true)
    (h5 : env.enableCache = true →
      (env.cache0.get env.query
        (some (JVal.jobj [("page".toList, .jnum env.page),
          ("pageSize".toList, .jnum env.pageSize)])) env.now).1 = none)
    (h6 : env.execRes = .ok rows)
    (h7 : env.countRes = .ok n) :
    (POST env = POST { env with embedRes := .ok (), docsRes := .ok [] }) ∧
    ∃ r c l, POST env = .ok r c l ∧ r.success = true ∧
      r.document_results = none ∧
      r.structured_results = (if rows.length > 0 then some rows else none) ∧
      r.security.warnings =
        (validateQuerySecurity (String.mk (generateSQL env.genRes))).warnings :=
  POST_hybrid_docfail_silent env rows n hcls hdoc hsafe h3 h4 h5 h6 h7

/-- C2 witness: the amended statement instantiated at the concrete
environment `envC2`, whose embedding oracle errors. -/
theorem C2_document_failure_amended_witness :
    (POST envC2 = POST { envC2 with embedRes := .ok (), docsRes := .ok [] }) ∧
    ∃ r c l, POST envC2 = .ok r c l ∧ r.success = true ∧
      r.document_results = none ∧
      r.structured_results =
        (if ([JVal.jstr ("row1".toList)] : List JVal).length > 0 then
          some [JVal.jstr ("row1".toList)] else none) ∧
      r.security.warnings =
        (validateQuerySecurity (String.mk (generateSQL envC2.genRes))).warnings :=
  C2_document_failure_amended envC2 [JVal.jstr ("row1".toList)] 1 (by decide)
    (Or.inl ⟨"embedding service down", rfl⟩) (by decide) (by decide) (by decide)
    (fun h => absurd h (by decide)) rfl rfl

/-! ## Serialisation injectivity (towards the cache-key invariant) -/

/-- Hex digit value of a lower-case hexadecimal character. -/
def hexValJ (c : Char) : Nat :=
  if 97 ≤ c.toNat then c.toNat - 87 else c.toNat - 48

/-- Decoder for one `JSON.stringify` escape block, inverse to `escCharJ`. -/
def unescHead : List Char → Option (Char × List Char)
  | [] => none
  | c :: rest =>
    if c = '\\' then
      match rest with
      | [] => none
      | e :: rest2 =>
        if e = '"' then some ('"', rest2)
        else if e = '\\' then some ('\\', rest2)
        else if e = 'b' then some (Char.ofNat 8, rest2)
        else if e = 't' then some (Char.ofNat 9, rest2)
        else if e = 'n' then some (Char.ofNat 10, rest2)
        else if e = 'f' then some (Char.ofNat 12, rest2)
        else if e = 'r' then some (Char.ofNat 13, rest2)
        else if e = 'u' then
          match rest2 with
          | _ :: _ :: h1 :: h2 :: rest3 =>
            some (Char.ofNat (hexValJ h1 * 16 + hexValJ h2), rest3)
          | _ => none
        else none
    else some (c, rest)

theorem hexValJ_hexDigitCh (n : Nat) (h : n < 16) : hexValJ (hexDigitCh n) = n := by
  interval_cases n <;> decide

/-- The escape block of a character is nonempty and never starts with an
unescaped quote. -/
theorem escCharJ_head (c : Char) : ∃ d ds, escCharJ c = d :: ds ∧ d ≠ '"' := by
  simp only [escCharJ]
  by_cases h1 : c = '"'
  · exact ⟨'\\', _, by rw [if_pos h1], by decide⟩
  rw [if_neg h1]
  by_cases h2 : c = '\\'
  · exact ⟨'\\', _, by rw [if_pos h2], by decide⟩
  rw [if_neg h2]
  by_cases h3 : c.toNat = 8
  · exact ⟨'\\', _, by rw [if_pos h3], by decide⟩
  rw [if_neg h3]
  by_cases h4 : c.toNat = 9
  · exact ⟨'\\', _, by rw [if_pos h4], by decide⟩
  rw [if_neg h4]
  by_cases h5 : c.toNat = 10
  · exact ⟨'\\', _, by rw [if_pos h5], by decide⟩
  rw [if_neg h5]
  by_cases h6 : c.toNat = 12
  · exact ⟨'\\', _, by rw [if_pos h6], by decide⟩
  rw [if_neg h6]
  by_cases h7 : c.toNat = 13
  · exact ⟨'\\', _, by rw [if_pos h7], by decide⟩
  rw [if_neg h7]
  by_cases h8 : c.toNat < 32
  · exact ⟨'\\', _, by rw [if_pos h8], by decide⟩
  · exact ⟨c, [], by rw [if_neg h8], h1⟩

/-- Decoding an escape block returns the escaped character and the rest. -/
theorem unescHead_escCharJ (c : Char) (rest : List Char) :
    unescHead (escCharJ c ++ rest) = some (c, rest) := by
  simp only [escCharJ]
  by_cases h1 : c = '"'
  · rw [if_pos h1, h1]; rfl
  rw [if_neg h1]
  by_cases h2 : c = '\\'
  · rw [if_pos h2, h2]; rfl
  rw [if_neg h2]
  by_cases h3 : c.toNat = 8
  · rw [if_pos h3]
    have hc : c = Char.ofNat 8 := by rw [← h3, Char.ofNat_toNat]
    rw [hc]; rfl
  rw [if_neg h3]
  by_cases h4 : c.toNat = 9
  · rw [if_pos h4]
    have hc : c = Char.ofNat 9 := by rw [← h4, Char.ofNat_toNat]
    rw [hc]; rfl
  rw [if_neg h4]
  by_cases h5 : c.toNat = 10
  · rw [if_pos h5]
    have hc : c = Char.ofNat 10 := by rw [← h5, Char.ofNat_toNat]
    rw [hc]; rfl
  rw [if_neg h5]
  by_cases h6 : c.toNat = 12
  · rw [if_pos h6]
    have hc : c = Char.ofNat 12 := by rw [← h6, Char.ofNat_toNat]
    rw [hc]; rfl
  rw [if_neg h6]
  by_cases h7 : c.toNat = 13
  · rw [if_pos h7]
    have hc : c = Char.ofNat 13 := by rw [← h7, Char.ofNat_toNat]
    rw [hc]; rfl
  rw [if_neg h7]
  by_cases h8 : c.toNat < 32
  · rw [if_pos h8]
    show unescHead ('\\' :: 'u' :: '0' :: '0' :: hexDigitCh (c.toNat / 16) ::
      hexDigitCh (c.toNat % 16) :: rest) = some (c, rest)
    rw [show unescHead ('\\' :: 'u' :: '0' :: '0' :: hexDigitCh (c.toNat / 16) ::
        hexDigitCh (c.toNat % 16) :: rest) =
      some (Char.ofNat (hexValJ (hexDigitCh (c.toNat / 16)) * 16 +
        hexValJ (hexDigitCh (c.toNat % 16))), rest) from rfl]
    rw [hexValJ_hexDigitCh _ (by omega), hexValJ_hexDigitCh _ (by omega),
      show c.toNat / 16 * 16 + c.toNat % 16 = c.toNat by omega, Char.ofNat_toNat]
  · rw [if_neg h8]
    show unescHead (c :: rest) = some (c, rest)
    simp only [unescHead]
    rw [if_neg h2]

/-- `escJ` distributes over cons. -/
theorem escJ_cons (c : Char) (s : List Char) :
    escJ (c :: s) = escCharJ c ++ escJ s := by
  simp [escJ]

/-- A `JSON.stringify` string body followed by its closing quote decodes
uniquely: the body and everything after the quote are determined. -/
theorem escJ_quote_inj : ∀ (s1 : List Char), ∀ (s2 r1 r2 : List Char),
    escJ s1 ++ '"' :: r1 = escJ s2 ++ '"' :: r2 → s1 = s2 ∧ r1 = r2 := by
  intro s1
  induction s1 with
  | nil =>
    intro s2 r1 r2 h
    cases s2 with
    | nil =>
      simp only [escJ, List.map_nil, List.flatten_nil, List.nil_append,
        List.cons.injEq] at h
      exact ⟨rfl, h.2⟩
    | cons c s2t =>
      exfalso
      obtain ⟨d, ds, hd, hne⟩ := escCharJ_head c
      rw [escJ_cons, hd] at h
      simp only [escJ, List.map_nil, List.flatten_nil, List.nil_append,
        List.cons_append, List.cons.injEq] at h
      exact hne h.1.symm
  | cons c1 s1t ih =>
    intro s2 r1 r2 h
    cases s2 with
    | nil =>
      exfalso
      obtain ⟨d, ds, hd, hne⟩ := escCharJ_head c1
      rw [escJ_cons, hd] at h
      simp only [escJ, List.map_nil, List.flatten_nil, List.nil_append,
        List.cons_append, List.cons.injEq] at h
      exact hne h.1
    | cons c2 s2t =>
      rw [escJ_cons, escJ_cons, List.append_assoc, List.append_assoc] at h
      have h2 := congrArg unescHead h
      rw [unescHead_escCharJ, unescHead_escCharJ] at h2
      have h3 := Option.some.inj h2
      have hc : c1 = c2 := congrArg Prod.fst h3
      have ht : escJ s1t ++ '"' :: r1 = escJ s2t ++ '"' :: r2 :=
        congrArg Prod.snd h3
      obtain ⟨hs, hr⟩ := ih s2t r1 r2 ht
      exact ⟨by rw [hc, hs], hr⟩

theorem digitCh_isDigit (d : Nat) (h : d < 10) : isDigitCh (digitCh d) = true := by
  interval_cases d <;> decide

theorem digitCh_val (d : Nat) (h : d < 10) : (digitCh d).toNat - 48 = d := by
  interval_cases d <;> decide

theorem natDigits_ne_nil (n : Nat) : natDigits n ≠ [] := by
  rw [natDigits_eq]
  by_cases h : n < 10 <;> simp [h]

theorem natDigits_all_digits :
    ∀ (n : Nat), ∀ c ∈ natDigits n, isDigitCh c = true := by
  intro n
  induction n using Nat.strong_induction_on with
  | _ n ih =>
    rw [natDigits_eq]
    by_cases h : n < 10
    · rw [if_pos h]
      intro c hc
      rw [List.mem_singleton] at hc
      rw [hc]
      exact digitCh_isDigit n h
    · rw [if_neg h]
      intro c hc
      rcases List.mem_append.mp hc with h1 | h1
      · exact ih (n / 10) (Nat.div_lt_self (by omega) (by omega)) c h1
      · rw [List.mem_singleton] at h1
        rw [h1]
        exact digitCh_isDigit _ (Nat.mod_lt _ (by omega))

theorem natOfDigits_snoc (xs : List Char) (c : Char) :
    natOfDigits (xs ++ [c]) = natOfDigits xs * 10 + (c.toNat - 48) := by
  simp [natOfDigits, List.foldl_append]

/-- Reading the decimal digits back recovers the number. -/
theorem natOfDigits_natDigits : ∀ (n : Nat), natOfDigits (natDigits n) = n := by
  intro n
  induction n using Nat.strong_induction_on with
  | _ n ih =>
    rw [natDigits_eq]
    by_cases h : n < 10
    · rw [if_pos h]
      show natOfDigits ([] ++ [digitCh n]) = n
      rw [natOfDigits_snoc, digitCh_val n h]
      simp [natOfDigits]
    · rw [if_neg h]
      rw [natOfDigits_snoc, ih (n / 10) (Nat.div_lt_self (by omega) (by omega)),
        digitCh_val _ (Nat.mod_lt _ (by omega))]
      omega

theorem natDigits_inj (a b : Nat) (h : natDigits a = natDigits b) : a = b := by
  have := congrArg natOfDigits h
  rwa [natOfDigits_natDigits, natOfDigits_natDigits] at this

/-- `r` does not start with a decimal digit (so it cannot extend a number
token). -/
def noDig (r : List Char) : Prop :=
  ∀ c, r.head? = some c → isDigitCh c = false

theorem noDig_nil : noDig [] := by
  intro c hc
  simp at hc

theorem noDig_cons (x : Char) (xs : List Char) (h : isDigitCh x = false) :
    noDig (x :: xs) := by
  intro c hc
  simp only [List.head?_cons, Option.some.injEq] at hc
  rw [← hc]
  exact h

/-- A run of digits followed by a non-digit boundary is determined. -/
theorem digits_boundary_inj : ∀ (d1 : List Char), ∀ (d2 r1 r2 : List Char),
    (∀ c ∈ d1, isDigitCh c = true) → (∀ c ∈ d2, isDigitCh c = true) →
    noDig r1 → noDig r2 → d1 ++ r1 = d2 ++ r2 → d1 = d2 ∧ r1 = r2 := by
  intro d1
  induction d1 with
  | nil =>
    intro d2 r1 r2 _ hd2 hr1 _ h
    cases d2 with
    | nil => exact ⟨rfl, h⟩
    | cons c d2t =>
      exfalso
      simp only [List.nil_append, List.cons_append] at h
      have hhead : r1.head? = some c := by rw [h]; rfl
      have := hr1 c hhead
      rw [hd2 c (List.mem_cons_self c d2t)] at this
      exact Bool.true_eq_false.mp this
  | cons c1 d1t ih =>
    intro d2 r1 r2 hd1 hd2 hr1 hr2 h
    cases d2 with
    | nil =>
      exfalso
      simp only [List.cons_append, List.nil_append] at h
      have hhead : r2.head? = some c1 := by rw [← h]; rfl
      have := hr2 c1 hhead
      rw [hd1 c1 (List.mem_cons_self c1 d1t)] at this
      exact Bool.true_eq_false.mp this
    | cons c2 d2t =>
      simp only [List.cons_append, List.cons.injEq] at h
      obtain ⟨hs, hr⟩ := ih d2t r1 r2
        (fun c hc => hd1 c (List.mem_cons_of_mem _ hc))
        (fun c hc => hd2 c (List.mem_cons_of_mem _ hc)) hr1 hr2 h.2
      exact ⟨by rw [h.1, hs], hr⟩

/-- Decimal rendering of integers, followed by non-digit boundaries, is
determined. -/
theorem serInt_boundary_inj (a b : Int) (r1 r2 : List Char)
    (hr1 : noDig r1) (hr2 : noDig r2)
    (h : serInt a ++ r1 = serInt b ++ r2) : a = b ∧ r1 = r2 := by
  have hminus : isDigitCh '-' = false := by decide
  simp only [serInt] at h
  by_cases ha : a < 0 <;> by_cases hb : b < 0
  · rw [if_pos ha, if_pos hb] at h
    simp only [List.cons_append, List.cons.injEq] at h
    obtain ⟨hs, hr⟩ := digits_boundary_inj _ _ r1 r2
      (natDigits_all_digits _) (natDigits_all_digits _) hr1 hr2 h.2
    have := natDigits_inj _ _ hs
    exact ⟨by omega, hr⟩
  · exfalso
    rw [if_pos ha, if_neg hb] at h
    obtain ⟨c, cs, hcc⟩ : ∃ c cs, natDigits b.toNat = c :: cs := by
      rcases hx : natDigits b.toNat with _ | ⟨c, cs⟩
      · exact absurd hx (natDigits_ne_nil _)
      · exact ⟨c, cs, rfl⟩
    rw [hcc] at h
    simp only [List.cons_append, List.cons.injEq] at h
    have hd : isDigitCh c = true :=
      natDigits_all_digits b.toNat c (by rw [hcc]; exact List.mem_cons_self c cs)
    rw [← h.1] at hd
    rw [hminus] at hd
    exact Bool.false_eq_true.mp hd
  · exfalso
    rw [if_neg ha, if_pos hb] at h
    obtain ⟨c, cs, hcc⟩ : ∃ c cs, natDigits a.toNat = c :: cs := by
      rcases hx : natDigits a.toNat with _ | ⟨c, cs⟩
      · exact absurd hx (natDigits_ne_nil _)
      · exact ⟨c, cs, rfl⟩
    rw [hcc] at h
    simp only [List.cons_append, List.cons.injEq] at h
    have hd : isDigitCh c = true :=
      natDigits_all_digits a.toNat c (by rw [hcc]; exact List.mem_cons_self c cs)
    rw [h.1] at hd
    rw [hminus] at hd
    exact Bool.false_eq_true.mp hd
  · rw [if_neg ha, if_neg hb] at h
    obtain ⟨hs, hr⟩ := digits_boundary_inj _ _ r1 r2
      (natDigits_all_digits _) (natDigits_all_digits _) hr1 hr2 h
    have := natDigits_inj _ _ hs
    exact ⟨by omega, hr⟩

mutual

/-- Structural size of a JSON value, for the injectivity induction. -/
def sizeJ : JVal → Nat
  | .jnull => 1
  | .jbool _ => 1
  | .jnum _ => 1
  | .jstr _ => 1
  | .jarr es => 1 + sizeArrJ es
  | .jobj fs => 1 + sizeObjJ fs

/-- Size of an array body. -/
def sizeArrJ : List JVal → Nat
  | [] => 0
  | v :: vs => sizeJ v + 1 + sizeArrJ vs

/-- Size of an object body. -/
def sizeObjJ : List (List Char × JVal) → Nat
  | [] => 0
  | (_, v) :: fs => sizeJ v + 1 + sizeObjJ fs

end

theorem sizeJ_pos (v : JVal) : 1 ≤ sizeJ v := by
  cases v <;> simp [sizeJ]

/-- Constructor index of a JSON value (booleans share one index). -/
def ctorIdx : JVal → Nat
  | .jnull => 0
  | .jbool _ => 1
  | .jnum _ => 3
  | .jstr _ => 4
  | .jarr _ => 5
  | .jobj _ => 6

/-- Constructor index read off the first serialised character. -/
def headIdx (c : Char) : Nat :=
  if c = 'n' then 0 else if c = 't' then 1 else if c = 'f' then 1
  else if c = '"' then 4 else if c = '[' then 5 else if c = lbraceCh then 6
  else 3

/-- A digit character is classified as a number head and is none of the
serialiser's delimiters. -/
theorem digit_head_facts (c : Char) (h : isDigitCh c = true) :
    headIdx c = 3 ∧ c ≠ ']' ∧ c ≠ rbraceCh ∧ c ≠ ',' := by
  have h1 : 48 ≤ c.toNat ∧ c.toNat ≤ 57 := by
    simpa [isDigitCh] using h
  have hne : ∀ (d : Char), ¬(48 ≤ d.toNat ∧ d.toNat ≤ 57) → c ≠ d := by
    intro d hd he
    rw [he] at h1
    exact hd h1
  refine ⟨?_, hne ']' (by decide), hne rbraceCh (by decide), hne ',' (by decide)⟩
  simp only [headIdx]
  rw [if_neg (hne 'n' (by decide)), if_neg (hne 't' (by decide)),
    if_neg (hne 'f' (by decide)), if_neg (hne '"' (by decide)),
    if_neg (hne '[' (by decide)), if_neg (hne lbraceCh (by decide))]

/-- The first character of a serialised value is nonempty, classifies its
constructor, and is never a closing delimiter or comma. -/
theorem serJ_head_spec (v : JVal) : ∃ c cs, serJ v = c :: cs ∧
    headIdx c = ctorIdx v ∧ c ≠ ']' ∧ c ≠ rbraceCh ∧ c ≠ ',' := by
  cases v with
  | jnull => exact ⟨'n', _, rfl, by decide, by decide, by decide, by decide⟩
  | jbool b =>
    cases b with
    | true => exact ⟨'t', _, rfl, by decide, by decide, by decide, by decide⟩
    | false => exact ⟨'f', _, rfl, by decide, by decide, by decide, by decide⟩
  | jstr s => exact ⟨'"', _, rfl, rfl, by decide, by decide, by decide⟩
  | jarr es => exact ⟨'[', _, rfl, rfl, by decide, by decide, by decide⟩
  | jobj fs => exact ⟨lbraceCh, _, rfl, rfl, by decide, by decide, by decide⟩
  | jnum n =>
    simp only [serJ, serInt]
    by_cases hn : n < 0
    · simp only [if_pos hn]
      exact ⟨'-', _, rfl, rfl, by decide, by decide, by decide⟩
    · simp only [if_neg hn]
      obtain ⟨c, cs, hcc⟩ : ∃ c cs, natDigits n.toNat = c :: cs := by
        rcases hx : natDigits n.toNat with _ | ⟨c, cs⟩
        · exact absurd hx (natDigits_ne_nil _)
        · exact ⟨c, cs, rfl⟩
      have hd : isDigitCh c = true :=
        natDigits_all_digits n.toNat c (by rw [hcc]; exact List.mem_cons_self c cs)
      obtain ⟨hh, hb1, hb2, hb3⟩ := digit_head_facts c hd
      exact ⟨c, cs, hcc, hh, hb1, hb2, hb3⟩

theorem serObj_cons_cons (k : List Char) (w : JVal) (f2 : List Char × JVal)
    (fs : List (List Char × JVal)) :
    serObj ((k, w) :: f2 :: fs) =
      ('"' :: (escJ k ++ ('"' :: (':' :: serJ w)))) ++ ',' :: serObj (f2 :: fs) :=
  rfl

theorem serObj_single (k : List Char) (w : JVal) :
    serObj [(k, w)] = '"' :: (escJ k ++ ('"' :: (':' :: serJ w))) :=
  rfl

/-- Prefix determinism of `serJ`: a serialised value followed by a
boundary that cannot extend a number token determines the value and the
remainder.  The bound on `sizeJ` drives the induction. -/
theorem serJ_prefix_bound : ∀ (N : Nat), ∀ (v1 v2 : JVal) (r1 r2 : List Char),
    sizeJ v1 ≤ N → noDig r1 → noDig r2 →
    serJ v1 ++ r1 = serJ v2 ++ r2 → v1 = v2 ∧ r1 = r2 := by
  intro N
  induction N with
  | zero =>
    intro v1 _ _ _ hsz
    have := sizeJ_pos v1
    omega
  | succ N ih =>
    intro v1 v2 r1 r2 hsz hr1 hr2 h
    have hctor : ctorIdx v1 = ctorIdx v2 := by
      obtain ⟨c1, cs1, he1, hh1, -⟩ := serJ_head_spec v1
      obtain ⟨c2, cs2, he2, hh2, -⟩ := serJ_head_spec v2
      rw [he1, he2] at h
      simp only [List.cons_append, List.cons.injEq] at h
      rw [← hh1, ← hh2, h.1]
    cases v1 with
    | jnull =>
      cases v2 with
      | jnull =>
        simp only [serJ, List.cons_append, List.nil_append, List.cons.injEq] at h
        exact ⟨rfl, h.2.2.2.2⟩
      | jbool b => exact absurd hctor (by simp [ctorIdx])
      | jnum n => exact absurd hctor (by simp [ctorIdx])
      | jstr s => exact absurd hctor (by simp [ctorIdx])
      | jarr es => exact absurd hctor (by simp [ctorIdx])
      | jobj fs => exact absurd hctor (by simp [ctorIdx])
    | jbool b1 =>
      cases v2 with
      | jbool b2 =>
        cases b1 <;> cases b2 <;>
          simp only [serJ, List.cons_append, List.nil_append,
            List.cons.injEq] at h
        case true.true => exact ⟨rfl, h.2.2.2.2⟩
        case true.false => exact absurd h.1 (by decide)
        case false.true => exact absurd h.1 (by decide)
        case false.false => exact ⟨rfl, h.2.2.2.2.2⟩
      | jnull => exact absurd hctor (by simp [ctorIdx])
      | jnum n => exact absurd hctor (by simp [ctorIdx])
      | jstr s => exact absurd hctor (by simp [ctorIdx])
      | jarr es => exact absurd hctor (by simp [ctorIdx])
      | jobj fs => exact absurd hctor (by simp [ctorIdx])
    | jnum n1 =>
      cases v2 with
      | jnum n2 =>
        simp only [serJ] at h
        obtain ⟨hv, hr⟩ := serInt_boundary_inj n1 n2 r1 r2 hr1 hr2 h
        exact ⟨by rw [hv], hr⟩
      | jnull => exact absurd hctor (by simp [ctorIdx])
      | jbool b => exact absurd hctor (by simp [ctorIdx])
      | jstr s => exact absurd hctor (by simp [ctorIdx])
      | jarr es => exact absurd hctor (by simp [ctorIdx])
      | jobj fs => exact absurd hctor (by simp [ctorIdx])
    | jstr s1 =>
      cases v2 with
      | jstr s2 =>
        simp only [serJ, List.cons_append, List.cons.injEq,
          List.append_assoc, List.singleton_append] at h
        obtain ⟨hs, hr⟩ := escJ_quote_inj s1 s2 r1 r2 h.2
        exact ⟨by rw [hs], hr⟩
      | jnull => exact absurd hctor (by simp [ctorIdx])
      | jbool b => exact absurd hctor (by simp [ctorIdx])
      | jnum n => exact absurd hctor (by simp [ctorIdx])
      | jarr es => exact absurd hctor (by simp [ctorIdx])
      | jobj fs => exact absurd hctor (by simp [ctorIdx])
    | jarr es1 =>
      cases v2 with
      | jarr es2 =>
        have chain : ∀ (xs : List JVal), sizeArrJ xs ≤ N → ∀ ys t1 t2,
            serArr xs ++ ']' :: t1 = serArr ys ++ ']' :: t2 →
            xs = ys ∧ t1 = t2 := by
          intro xs
          induction xs with
          | nil =>
            intro _ ys t1 t2 hch
            cases ys with
            | nil =>
              simp only [serArr, List.nil_append, List.cons.injEq] at hch
              exact ⟨rfl, hch.2⟩
            | cons w ws =>
              exfalso
              obtain ⟨c, cs, he, -, hne, -⟩ := serJ_head_spec w
              have hshape : ∃ X, serArr (w :: ws) = serJ w ++ X := by
                cases ws with
                | nil => exact ⟨[], by simp [serArr]⟩
                | cons w2 ws2 => exact ⟨_, rfl⟩
              obtain ⟨X, hX⟩ := hshape
              rw [hX, he] at hch
              simp only [serArr, List.nil_append, List.cons_append,
                List.cons.injEq] at hch
              exact hne hch.1.symm
          | cons w ws ihc =>
            intro hszc ys t1 t2 hch
            have hsw : sizeJ w ≤ N := by
              simp only [sizeArrJ] at hszc
              omega
            cases ys with
            | nil =>
              exfalso
              obtain ⟨c, cs, he, -, hne, -⟩ := serJ_head_spec w
              have hshape : ∃ X, serArr (w :: ws) = serJ w ++ X := by
                cases ws with
                | nil => exact ⟨[], by simp [serArr]⟩
                | cons w2 ws2 => exact ⟨_, rfl⟩
              obtain ⟨X, hX⟩ := hshape
              rw [hX, he] at hch
              simp only [serArr, List.nil_append, List.cons_append,
                List.cons.injEq] at hch
              exact hne hch.1
            | cons y ys2 =>
              cases ws with
              | nil =>
                cases ys2 with
                | nil =>
                  have hch2 : serJ w ++ (']' :: t1) = serJ y ++ (']' :: t2) := by
                    simpa only [serArr] using hch
                  obtain ⟨hw, hrest⟩ := ih w y (']' :: t1) (']' :: t2) hsw
                    (noDig_cons _ _ (by decide)) (noDig_cons _ _ (by decide)) hch2
                  simp only [List.cons.injEq, true_and] at hrest
                  exact ⟨by rw [hw], hrest⟩
                | cons y2 ys3 =>
                  exfalso
                  have hch2 : serJ w ++ (']' :: t1) =
                      serJ y ++ (',' :: (serArr (y2 :: ys3) ++ ']' :: t2)) := by
                    simpa only [serArr, List.append_assoc,
                      List.cons_append] using hch
                  obtain ⟨hw, hrest⟩ := ih w y (']' :: t1)
                    (',' :: (serArr (y2 :: ys3) ++ ']' :: t2)) hsw
                    (noDig_cons _ _ (by decide)) (noDig_cons _ _ (by decide)) hch2
                  simp only [List.cons.injEq] at hrest
                  exact absurd hrest.1 (by decide)
              | cons w2 ws2 =>
                cases ys2 with
                | nil =>
                  exfalso
                  have hch2 : serJ w ++ (',' :: (serArr (w2 :: ws2) ++ ']' :: t1)) =
                      serJ y ++ (']' :: t2) := by
                    simpa only [serArr, List.append_assoc,
                      List.cons_append] using hch
                  obtain ⟨hw, hrest⟩ := ih w y
                    (',' :: (serArr (w2 :: ws2) ++ ']' :: t1)) (']' :: t2) hsw
                    (noDig_cons _ _ (by decide)) (noDig_cons _ _ (by decide)) hch2
                  simp only [List.cons.injEq] at hrest
                  exact absurd hrest.1 (by decide)
                | cons y2 ys3 =>
                  have hch2 : serJ w ++ (',' :: (serArr (w2 :: ws2) ++ ']' :: t1)) =
                      serJ y ++ (',' :: (serArr (y2 :: ys3) ++ ']' :: t2)) := by
                    simpa only [serArr, List.append_assoc,
                      List.cons_append] using hch
                  obtain ⟨hw, hrest⟩ := ih w y
                    (',' :: (serArr (w2 :: ws2) ++ ']' :: t1))
                    (',' :: (serArr (y2 :: ys3) ++ ']' :: t2)) hsw
                    (noDig_cons _ _ (by decide)) (noDig_cons _ _ (by decide)) hch2
                  simp only [List.cons.injEq, true_and] at hrest
                  have hszc2 : sizeArrJ (w2 :: ws2) ≤ N := by
                    simp only [sizeArrJ] at hszc ⊢
                    have := sizeJ_pos w
                    omega
                  obtain ⟨hws, ht⟩ := ihc hszc2 (y2 :: ys3) t1 t2 hrest
                  exact ⟨by rw [hw, hws], ht⟩
        simp only [serJ, List.cons_append, List.cons.injEq,
          List.append_assoc, List.singleton_append] at h
        have hszA : sizeArrJ es1 ≤ N := by
          simp only [sizeJ] at hsz
          omega
        obtain ⟨hes, ht⟩ := chain es1 hszA es2 r1 r2 h.2
        exact ⟨by rw [hes], ht⟩
      | jnull => exact absurd hctor (by simp [ctorIdx])
      | jbool b => exact absurd hctor (by simp [ctorIdx])
      | jnum n => exact absurd hctor (by simp [ctorIdx])
      | jstr s => exact absurd hctor (by simp [ctorIdx])
      | jobj fs => exact absurd hctor (by simp [ctorIdx])
    | jobj fs1 =>
      cases v2 with
      | jobj fs2 =>
        have chain : ∀ (xs : List (List Char × JVal)), sizeObjJ xs ≤ N →
            ∀ ys t1 t2,
            serObj xs ++ rbraceCh :: t1 = serObj ys ++ rbraceCh :: t2 →
            xs = ys ∧ t1 = t2 := by
          intro xs
          induction xs with
          | nil =>
            intro _ ys t1 t2 hch
            cases ys with
            | nil =>
              simp only [serObj, List.nil_append, List.cons.injEq] at hch
              exact ⟨rfl, hch.2⟩
            | cons y ys2 =>
              exfalso
              obtain ⟨k, w⟩ := y
              have hshape : ∃ X, serObj ((k, w) :: ys2) = '"' :: X := by
                cases ys2 with
                | nil => exact ⟨_, rfl⟩
                | cons y2 ys3 => exact ⟨_, rfl⟩
              obtain ⟨X, hX⟩ := hshape
              rw [hX] at hch
              simp only [serObj, List.nil_append, List.cons_append,
                List.cons.injEq] at hch
              exact absurd hch.1 (by decide)
          | cons x xs2 ihc =>
            intro hszc ys t1 t2 hch
            obtain ⟨k1, w1⟩ := x
            have hsw : sizeJ w1 ≤ N := by
              simp only [sizeObjJ] at hszc
              omega
            cases ys with
            | nil =>
              exfalso
              have hshape : ∃ X, serObj ((k1, w1) :: xs2) = '"' :: X := by
                cases xs2 with
                | nil => exact ⟨_, rfl⟩
                | cons x2 xs3 => exact ⟨_, rfl⟩
              obtain ⟨X, hX⟩ := hshape
              rw [hX] at hch
              simp only [serObj, List.nil_append, List.cons_append,
                List.cons.injEq] at hch
              exact absurd hch.1.symm (by decide)
            | cons y ys2 =>
              obtain ⟨k2, w2⟩ := y
              cases xs2 with
              | nil =>
                cases ys2 with
                | nil =>
                  have hch2 : escJ k1 ++ '"' :: (':' :: (serJ w1 ++
                        rbraceCh :: t1)) =
                      escJ k2 ++ '"' :: (':' :: (serJ w2 ++ rbraceCh :: t2)) := by
                    have := hch
                    simp only [serObj, List.cons_append, List.append_assoc,
                      List.cons.injEq, List.singleton_append, true_and] at this
                    simpa only [List.append_assoc, List.cons_append] using this
                  obtain ⟨hk, hrest⟩ := escJ_quote_inj k1 k2 _ _ hch2
                  simp only [List.cons.injEq, true_and] at hrest
                  obtain ⟨hw, hrest2⟩ := ih w1 w2 (rbraceCh :: t1)
                    (rbraceCh :: t2) hsw (noDig_cons _ _ (by decide))
                    (noDig_cons _ _ (by decide)) hrest
                  simp only [List.cons.injEq, true_and] at hrest2
                  exact ⟨by rw [hk, hw], hrest2⟩
                | cons y2 ys3 =>
                  exfalso
                  have hch2 : escJ k1 ++ '"' :: (':' :: (serJ w1 ++
                        rbraceCh :: t1)) =
                      escJ k2 ++ '"' :: (':' :: (serJ w2 ++
                        (',' :: (serObj (y2 :: ys3) ++ rbraceCh :: t2)))) := by
                    have h0 := hch
                    rw [serObj_single, serObj_cons_cons] at h0
                    simp only [List.cons_append, List.append_assoc,
                      List.cons.injEq, eq_self_iff_true, true_and] at h0
                    exact h0
                  obtain ⟨hk, hrest⟩ := escJ_quote_inj k1 k2 _ _ hch2
                  simp only [List.cons.injEq, true_and] at hrest
                  obtain ⟨hw, hrest2⟩ := ih w1 w2 (rbraceCh :: t1)
                    (',' :: (serObj (y2 :: ys3) ++ rbraceCh :: t2)) hsw
                    (noDig_cons _ _ (by decide))
                    (noDig_cons _ _ (by decide)) hrest
                  simp only [List.cons.injEq] at hrest2
                  exact absurd hrest2.1 (by decide)
              | cons x2 xs3 =>
                cases ys2 with
                | nil =>
                  exfalso
                  have hch2 : escJ k1 ++ '"' :: (':' :: (serJ w1 ++
                        (',' :: (serObj (x2 :: xs3) ++ rbraceCh :: t1)))) =
                      escJ k2 ++ '"' :: (':' :: (serJ w2 ++ rbraceCh :: t2)) := by
                    have h0 := hch
                    rw [serObj_cons_cons, serObj_single] at h0
                    simp only [List.cons_append, List.append_assoc,
                      List.cons.injEq, eq_self_iff_true, true_and] at h0
                    exact h0
                  obtain ⟨hk, hrest⟩ := escJ_quote_inj k1 k2 _ _ hch2
                  simp only [List.cons.injEq, true_and] at hrest
                  obtain ⟨hw, hrest2⟩ := ih w1 w2
                    (',' :: (serObj (x2 :: xs3) ++ rbraceCh :: t1))
                    (rbraceCh :: t2) hsw (noDig_cons _ _ (by decide))
                    (noDig_cons _ _ (by decide)) hrest
                  simp only [List.cons.injEq] at hrest2
                  exact absurd hrest2.1 (by decide)
                | cons y2 ys3 =>
                  have hch2 : escJ k1 ++ '"' :: (':' :: (serJ w1 ++
                        (',' :: (serObj (x2 :: xs3) ++ rbraceCh :: t1)))) =
                      escJ k2 ++ '"' :: (':' :: (serJ w2 ++
                        (',' :: (serObj (y2 :: ys3) ++ rbraceCh :: t2)))) := by
                    have h0 := hch
                    rw [serObj_cons_cons, serObj_cons_cons] at h0
                    simp only [List.cons_append, List.append_assoc,
                      List.cons.injEq, eq_self_iff_true, true_and] at h0
                    exact h0
                  obtain ⟨hk, hrest⟩ := escJ_quote_inj k1 k2 _ _ hch2
                  simp only [List.cons.injEq, true_and] at hrest
                  obtain ⟨hw, hrest2⟩ := ih w1 w2
                    (',' :: (serObj (x2 :: xs3) ++ rbraceCh :: t1))
                    (',' :: (serObj (y2 :: ys3) ++ rbraceCh :: t2)) hsw
                    (noDig_cons _ _ (by decide))
                    (noDig_cons _ _ (by decide)) hrest
                  simp only [List.cons.injEq, true_and] at hrest2
                  have hszc2 : sizeObjJ (x2 :: xs3) ≤ N := by
                    simp only [sizeObjJ] at hszc ⊢
                    have := sizeJ_pos w1
                    omega
                  obtain ⟨hws, ht⟩ := ihc hszc2 (y2 :: ys3) t1 t2 hrest2
                  exact ⟨by rw [hk, hw, hws], ht⟩
        simp only [serJ, List.cons_append, List.cons.injEq,
          List.append_assoc, List.singleton_append] at h
        have hszO : sizeObjJ fs1 ≤ N := by
          simp only [sizeJ] at hsz
          omega
        obtain ⟨hfs, ht⟩ := chain fs1 hszO fs2 r1 r2 h.2
        exact ⟨by rw [hfs], ht⟩
      | jnull => exact absurd hctor (by simp [ctorIdx])
      | jbool b => exact absurd hctor (by simp [ctorIdx])
      | jnum n => exact absurd hctor (by simp [ctorIdx])
      | jstr s => exact absurd hctor (by simp [ctorIdx])
      | jarr es => exact absurd hctor (by simp [ctorIdx])

/-- `JSON.stringify` is injective on the modelled values. -/
theorem serJ_inj (v1 v2 : JVal) (h : serJ v1 = serJ v2) : v1 = v2 :=
  (serJ_prefix_bound (sizeJ v1) v1 v2 [] [] le_rfl noDig_nil noDig_nil
    (by rw [List.append_nil, List.append_nil, h])).1
/-- `set` on a cache below capacity just inserts, with the default TTL when
none is passed. -/
theorem QueryCache.set_not_full {α : Type} (c : QueryCache α) (q : String)
    (d : α) (p : Option JVal) (now : Int)
    (h : ¬ c.entries.length ≥ c.maxSize) :
    c.set q d p none now =
      { c with entries :=
          mapSet c.entries (generateKey q p) ⟨d, now, c.defaultTTL, 0⟩ } := by
  simp only [QueryCache.set, if_neg h]

/-- `get` on a present, unexpired entry returns its data with `hit: true`. -/
theorem QueryCache.get_found {α : Type} (c : QueryCache α) (q : String)
    (p : Option JVal) (now : Int) (e : CacheEntry α)
    (hf : mapFind c.entries (generateKey q p) = some e)
    (hage : ¬ now - e.timestamp > e.ttl) :
    (c.get q p now).1 = some ⟨e.data, true⟩ := by
  simp only [QueryCache.get, hf, if_neg hage]

/-- C5: the cache key invariant.  (i) Requests whose query texts normalise
identically (trim, lower-case, collapse whitespace) and whose params agree
map to the same cache key.  (ii) Two different param objects with the same
query text map to different keys, because `JSON.stringify` is injective on
the modelled values.  (iii) Concretely, storing under `\x7bpage: 1\x7d` and
`\x7bpage: 2\x7d` on the same query keeps both entries independently
retrievable, each `get` returning its own data. -/
theorem C5_cache_key_invariant :
    (∀ (q1 q2 : String) (p : Option JVal),
      collapseWs (lowerL (jsTrim q1.toList)) =
        collapseWs (lowerL (jsTrim q2.toList)) →
      generateKey q1 p = generateKey q2 p) ∧
    (∀ (q : String) (fs1 fs2 : List (List Char × JVal)), fs1 ≠ fs2 →
      generateKey q (some (.jobj fs1)) ≠ generateKey q (some (.jobj fs2))) ∧
    (∀ (α : Type) (d1 d2 : α) (now : Int),
      ((((QueryCache.mk0 α).set "a" d1
          (some (.jobj [("page".toList, .jnum 1)])) none now).set "a" d2
          (some (.jobj [("page".toList, .jnum 2)])) none now).get "a"
          (some (.jobj [("page".toList, .jnum 1)])) now).1 = some ⟨d1, true⟩ ∧
      ((((QueryCache.mk0 α).set "a" d1
          (some (.jobj [("page".toList, .jnum 1)])) none now).set "a" d2
          (some (.jobj [("page".toList, .jnum 2)])) none now).get "a"
          (some (.jobj [("page".toList, .jnum 2)])) now).1 = some ⟨d2, true⟩) := by
  refine ⟨?_, ?_, ?_⟩
  · intro q1 q2 p h
    simp only [generateKey]
    rw [h]
  · intro q fs1 fs2 hne hk
    apply hne
    simp only [generateKey, jsTruthy, if_true] at hk
    have h2 := List.append_cancel_left hk
    simp only [List.cons.injEq, true_and] at h2
    have h3 := serJ_inj _ _ h2
    injection h3
  · intro α d1 d2 now
    have hk : generateKey "a" (some (JVal.jobj [("page".toList, JVal.jnum 1)])) ≠
        generateKey "a" (some (JVal.jobj [("page".toList, JVal.jnum 2)])) := by
      decide
    have hkL1 : ¬ generateKey "a"
          (some (JVal.jobj [(['p', 'a', 'g', 'e'], JVal.jnum 1)])) =
        generateKey "a" (some (JVal.jobj [(['p', 'a', 'g', 'e'], JVal.jnum 2)])) :=
      hk
    have hkL2 : ¬ generateKey "a"
          (some (JVal.jobj [(['p', 'a', 'g', 'e'], JVal.jnum 2)])) =
        generateKey "a" (some (JVal.jobj [(['p', 'a', 'g', 'e'], JVal.jnum 1)])) :=
      fun h => hk h.symm
    have h1 : (QueryCache.mk0 α).set "a" d1
        (some (.jobj [("page".toList, .jnum 1)])) none now =
        { maxSize := 1000, defaultTTL := 300000, entries :=
          [(generateKey "a" (some (JVal.jobj [("page".toList, JVal.jnum 1)])),
            ⟨d1, now, 300000, 0⟩)] } := by
      rw [QueryCache.set_not_full _ _ _ _ _ (by simp [QueryCache.mk0])]
      simp [QueryCache.mk0, mapSet]
    have hstep : ((((QueryCache.mk0 α).set "a" d1
        (some (.jobj [("page".toList, .jnum 1)])) none now).set "a" d2
        (some (.jobj [("page".toList, .jnum 2)])) none now).entries) =
        [(generateKey "a" (some (JVal.jobj [("page".toList, JVal.jnum 1)])),
            ⟨d1, now, 300000, 0⟩),
          (generateKey "a" (some (JVal.jobj [("page".toList, JVal.jnum 2)])),
            ⟨d2, now, 300000, 0⟩)] := by
      rw [h1, QueryCache.set_not_full _ _ _ _ _ (by simp)]
      simp [mapSet, hkL1]
    constructor
    · refine QueryCache.get_found (((QueryCache.mk0 α).set "a" d1
        (some (.jobj [("page".toList, .jnum 1)])) none now).set "a" d2
        (some (.jobj [("page".toList, .jnum 2)])) none now) "a"
        (some (.jobj [("page".toList, .jnum 1)])) now ⟨d1, now, 300000, 0⟩ ?_ ?_
      · rw [hstep, mapFind_cons, if_pos (beq_self_eq_true _)]
      · simp
    · refine QueryCache.get_found (((QueryCache.mk0 α).set "a" d1
        (some (.jobj [("page".toList, .jnum 1)])) none now).set "a" d2
        (some (.jobj [("page".toList, .jnum 2)])) none now) "a"
        (some (.jobj [("page".toList, .jnum 2)])) now ⟨d2, now, 300000, 0⟩ ?_ ?_
      · rw [hstep, mapFind_cons, if_neg (by simp [hkL1]), mapFind_cons,
          if_pos (beq_self_eq_true _)]
      · simp

/-- C5 witness: two concrete param objects differing only in the `page`
value map to different cache keys. -/
theorem C5_cache_key_invariant_witness :
    generateKey "q" (some (JVal.jobj [("page".toList, JVal.jnum 1)])) ≠
      generateKey "q" (some (JVal.jobj [("page".toList, JVal.jnum 2)])) :=
  C5_cache_key_invariant.2.1 "q" _ _ (by decide)

end SynapseDB
